import Mathlib

/-!
# Verification of scripts/fetch_geojson.py

A shallow embedding of the NEREID `fetch_geojson.py` utility: the
Overpass-to-GeoJSON mapper, the Nominatim-to-GeoJSON mapper, the Overpass
query builder, the CLI entry point, and the JSON serialization used for the
output file.  Python's dynamically-typed JSON values are modelled by the
inductive type `JSON` below (numbers as exact rationals, standing for the
decimal values that flow through the script), raised exceptions by
`Except PyErr`, and the process's observable behaviour by a list of
`Eff` actions plus an exit status.
-/

/-- A JSON value as produced by Python's `json.loads`: `None`, booleans,
numbers (modelled as exact rationals), strings, lists and dicts (dicts as
association lists, looked up by first match). -/
inductive JSON where
  | null : JSON
  | bool : Bool → JSON
  | num : ℚ → JSON
  | str : String → JSON
  | arr : List JSON → JSON
  | obj : List (String × JSON) → JSON
deriving Inhabited

namespace JSON

-- Structural equality on JSON values, modelling Python's `==` on decoded
-- JSON data (lists and dicts compare elementwise / fieldwise).
mutual

def beq : JSON → JSON → Bool
  | .null, .null => true
  | .bool p, .bool q => p == q
  | .num p, .num q => p == q
  | .str p, .str q => p == q
  | .arr p, .arr q => beqList p q
  | .obj p, .obj q => beqFields p q
  | _, _ => false

def beqList : List JSON → List JSON → Bool
  | u :: us, w :: ws => beq u w && beqList us ws
  | [], [] => true
  | _, _ => false

def beqFields : List (String × JSON) → List (String × JSON) → Bool
  | (ka, va) :: fs, (kb, vb) :: gs => ka == kb && (beq va vb && beqFields fs gs)
  | [], [] => true
  | _, _ => false

end

instance : BEq JSON := ⟨beq⟩

mutual

theorem beq_iff_eq : ∀ a b : JSON, beq a b = true ↔ a = b
  | .null, .null => by simp [beq]
  | .bool _, .bool _ => by simp [beq]
  | .num _, .num _ => by simp [beq]
  | .str _, .str _ => by simp [beq]
  | .arr x, .arr y => by simp [beq, beqList_iff_eq x y]
  | .obj x, .obj y => by simp [beq, beqFields_iff_eq x y]
  | .null, .bool _ | .null, .num _ | .null, .str _ | .null, .arr _ | .null, .obj _
  | .bool _, .null | .bool _, .num _ | .bool _, .str _ | .bool _, .arr _ | .bool _, .obj _
  | .num _, .null | .num _, .bool _ | .num _, .str _ | .num _, .arr _ | .num _, .obj _
  | .str _, .null | .str _, .bool _ | .str _, .num _ | .str _, .arr _ | .str _, .obj _
  | .arr _, .null | .arr _, .bool _ | .arr _, .num _ | .arr _, .str _ | .arr _, .obj _
  | .obj _, .null | .obj _, .bool _ | .obj _, .num _ | .obj _, .str _ | .obj _, .arr _ => by
      simp [beq]

theorem beqList_iff_eq : ∀ us ws : List JSON, beqList us ws = true ↔ us = ws
  | [], _ :: _ => by simp [beqList]
  | _ :: _, [] => by simp [beqList]
  | [], [] => by simp [beqList]
  | u :: us, w :: ws => by
      rw [beqList, Bool.and_eq_true, beq_iff_eq u w, beqList_iff_eq us ws]
      exact (List.cons_eq_cons).symm

theorem beqFields_iff_eq :
    ∀ fs gs : List (String × JSON), beqFields fs gs = true ↔ fs = gs
  | [], _ :: _ => by simp [beqFields]
  | _ :: _, [] => by simp [beqFields]
  | [], [] => by simp [beqFields]
  | (ka, va) :: fs, (kb, vb) :: gs => by
      rw [beqFields, Bool.and_eq_true, Bool.and_eq_true]
      constructor
      · rintro ⟨hk, hv, ht⟩
        rw [eq_of_beq hk, (beq_iff_eq va vb).mp hv, (beqFields_iff_eq fs gs).mp ht]
      · intro h
        rw [List.cons_eq_cons, Prod.mk.injEq] at h
        obtain ⟨⟨rfl, rfl⟩, rfl⟩ := h
        exact ⟨beq_self_eq_true ka, (beq_iff_eq va va).mpr rfl,
               (beqFields_iff_eq fs fs).mpr rfl⟩

end

instance : LawfulBEq JSON where
  eq_of_beq h := (beq_iff_eq _ _).mp h
  rfl := (beq_iff_eq _ _).mpr rfl

instance : DecidableEq JSON := fun a b =>
  decidable_of_iff (beq a b = true) (beq_iff_eq a b)

end JSON

/-- A raised Python exception, as far as the script can raise one:
`KeyError` from `d[k]` on a missing key, `TypeError` from indexing or
iterating a value of the wrong shape, `ValueError` from `float(...)` or
from unpacking `str.split`. -/
inductive PyErr where
  | keyError : String → PyErr
  | typeError : String → PyErr
  | valueError : String → PyErr
deriving DecidableEq, Repr

instance {ε α : Type} [DecidableEq ε] [DecidableEq α] : DecidableEq (Except ε α) := fun a b =>
  match a, b with
  | .ok x, .ok y => if h : x = y then .isTrue (by rw [h]) else .isFalse (by simp [h])
  | .error x, .error y => if h : x = y then .isTrue (by rw [h]) else .isFalse (by simp [h])
  | .ok _, .error _ => .isFalse (by simp)
  | .error _, .ok _ => .isFalse (by simp)

namespace JSON

/-- Python dict lookup on an association list (keys are unique in a decoded
JSON object, so first match is the match). -/
def lookupField : List (String × JSON) → String → Option JSON
  | [], _ => none
  | (k, v) :: rest, key => if k = key then some v else lookupField rest key

/-- Python's `k in d` on a dict. -/
def hasField (fields : List (String × JSON)) (key : String) : Bool :=
  (lookupField fields key).isSome

/-- Python's `d.get(k, default)`. -/
def getD (fields : List (String × JSON)) (key : String) (dflt : JSON) : JSON :=
  (lookupField fields key).getD dflt

/-- Python's `d[k]` on a dict: the value, or `KeyError`. -/
def keyOf (fields : List (String × JSON)) (key : String) : Except PyErr JSON :=
  match lookupField fields key with
  | some v => Except.ok v
  | none => Except.error (.keyError key)

/-- Python's `v[k]` with a string key on an arbitrary value: `KeyError` on a
dict missing the key, `TypeError` on anything that is not a dict. -/
def pyIndex (v : JSON) (key : String) : Except PyErr JSON :=
  match v with
  | .obj fields => keyOf fields key
  | _ => Except.error (.typeError "value is not subscriptable by a string key")

/-- Iterating a JSON value as a Python list.  A non-list raises `TypeError`
(Python would also let a string or a dict be iterated, but every element so
obtained is a string and the indexing applied to it right after raises
`TypeError` as well, so the error outcome agrees). -/
def asList (v : JSON) : Except PyErr (List JSON) :=
  match v with
  | .arr xs => Except.ok xs
  | _ => Except.error (.typeError "value is not a list")

/-- Reading a JSON value as a Python dict; a non-dict raises `TypeError`
when indexed by the four bounds keys right after. -/
def asObj (v : JSON) : Except PyErr (List (String × JSON)) :=
  match v with
  | .obj fields => Except.ok fields
  | _ => Except.error (.typeError "value is not a dict")

end JSON

open JSON in
/-- `[pt["lon"], pt["lat"]]` for one vertex of a way's `geometry` list. -/
def ptPair (pt : JSON) : Except PyErr JSON := do
  let lon ← pyIndex pt "lon"
  let lat ← pyIndex pt "lat"
  pure (.arr [lon, lat])

/-- The ring-closure test `coords and coords[0] == coords[-1] and
len(coords) >= 4` from `overpass_to_geojson` (short-circuit semantics: an
empty list fails the first conjunct). -/
def closedRing (coords : List JSON) : Bool :=
  !coords.isEmpty
    && (coords.head?.getD .null == coords.getLast?.getD .null)
    && decide (4 ≤ coords.length)

open JSON in
/-- The body of the `for elem in data.get("elements", [])` loop of
`overpass_to_geojson`: the optional feature one element contributes, or the
exception its processing raises.  `Except.ok none` is the silent skip. -/
def elemToFeature : JSON → Except PyErr (Option JSON)
  | .obj fields => do
      let ty ← keyOf fields "type"
      let geom : Option JSON ←
        if ty == JSON.str "node" then do
          let lon ← keyOf fields "lon"
          let lat ← keyOf fields "lat"
          pure (some (.obj [("type", .str "Point"),
                            ("coordinates", .arr [lon, lat])]))
        else if ty == JSON.str "way" && hasField fields "geometry" then do
          let pts ← asList (getD fields "geometry" .null)
          let coords ← pts.mapM ptPair
          if closedRing coords then
            pure (some (.obj [("type", .str "Polygon"),
                              ("coordinates", .arr [.arr coords])]))
          else
            pure (some (.obj [("type", .str "LineString"),
                              ("coordinates", .arr coords)]))
        else if ty == JSON.str "relation" && hasField fields "bounds" then do
          let b ← asObj (getD fields "bounds" .null)
          let minlon ← keyOf b "minlon"
          let minlat ← keyOf b "minlat"
          let maxlon ← keyOf b "maxlon"
          let maxlat ← keyOf b "maxlat"
          pure (some (.obj [("type", .str "Polygon"),
                            ("coordinates",
                             .arr [.arr [.arr [minlon, minlat],
                                         .arr [maxlon, minlat],
                                         .arr [maxlon, maxlat],
                                         .arr [minlon, maxlat],
                                         .arr [minlon, minlat]]])]))
        else
          pure none
      match geom with
      | none => pure none
      | some g =>
          pure (some (.obj [("type", .str "Feature"),
                            ("properties", getD fields "tags" (.obj [])),
                            ("geometry", g)]))
  | _ => Except.error (.typeError "element is not a dict")

/-- The feature-accumulating loop of `overpass_to_geojson`: features in
input order, skipped elements contributing nothing, the first exception
aborting the whole call. -/
def featuresOf : List JSON → Except PyErr (List JSON)
  | [] => Except.ok []
  | e :: es => do
      let fo ← elemToFeature e
      let rest ← featuresOf es
      match fo with
      | none => pure rest
      | some f => pure (f :: rest)

open JSON in
/-- `overpass_to_geojson(data)`: Overpass JSON elements to a GeoJSON
FeatureCollection.  The argument is the decoded response dict. -/
def overpass_to_geojson (data : List (String × JSON)) : Except PyErr JSON := do
  let elems ← asList (getD data "elements" (.arr []))
  let features ← featuresOf elems
  pure (.obj [("type", .str "FeatureCollection"),
              ("features", .arr features)])

/-! ## Decimal digits and number rendering -/

/-- The decimal digit character for a value below ten. -/
def digitChar : Nat → Char
  | 0 => '0' | 1 => '1' | 2 => '2' | 3 => '3' | 4 => '4'
  | 5 => '5' | 6 => '6' | 7 => '7' | 8 => '8' | _ => '9'

/-- Little-endian decimal digits of a positive number (empty for zero). -/
def natDigitsAux : Nat → List Char
  | 0 => []
  | n + 1 => digitChar ((n + 1) % 10) :: natDigitsAux ((n + 1) / 10)
decreasing_by exact Nat.div_lt_self (Nat.succ_pos n) (by norm_num)

/-- Big-endian decimal digits of a number, empty for zero. -/
def natDigits (n : Nat) : List Char := (natDigitsAux n).reverse

/-- Decimal rendering of a natural number, `"0"` included. -/
def natChars (n : Nat) : List Char := if n = 0 then ['0'] else natDigits n

/-- Decimal rendering of an integer. -/
def intChars (m : Int) : List Char :=
  if m < 0 then '-' :: natChars m.natAbs else natChars m.natAbs

/-- The value of a big-endian string of decimal digits. -/
def digitsVal (cs : List Char) : Nat := cs.foldl (fun a c => a * 10 + (c.toNat - 48)) 0

/-- The smallest exponent `k` with `q.den ∣ 10 ^ k`, when one exists: the
numbers the script handles are decimal literals and `float(...)` results,
all of which have one. -/
def decExp? (q : ℚ) : Option Nat :=
  (List.range (q.den + 1)).find? (fun k => decide (q.den ∣ 10 ^ k))

/-- `r` rendered as exactly `k` decimal digits, zero-padded on the left
(the fractional part of a decimal, `r < 10 ^ k`). -/
def padDigits (k : Nat) (r : Nat) : List Char :=
  List.replicate (k - (natDigits r).length) '0' ++ natDigits r

/-- A rational rendered the way `json.dump` renders the script's numbers: as
an exact decimal, `mant / 10 ^ k` printed with `k` fractional digits.  (The
`none` fallback is unreachable on the values the script produces, which all
come from decimal text.)  Integral values print without a fractional part;
Python prints floats as `1.0` and ints as `1`, both of which reparse to the
same value, so the round-trip content is unchanged. -/
def serNumChars (q : ℚ) : List Char :=
  match decExp? q with
  | none => ['0']
  | some k =>
    let m : Int := q.num * ((10 ^ k) / (q.den : Int))
    if k = 0 then intChars m
    else (if m < 0 then ['-'] else []) ++ natChars (m.natAbs / 10 ^ k)
           ++ '.' :: padDigits k (m.natAbs % 10 ^ k)

/-! ## String escaping (`json.dump` with `ensure_ascii=False`) -/

/-- The lowercase hexadecimal digit character for a value below sixteen. -/
def hexDigitChar : Nat → Char
  | 0 => '0' | 1 => '1' | 2 => '2' | 3 => '3' | 4 => '4'
  | 5 => '5' | 6 => '6' | 7 => '7' | 8 => '8' | 9 => '9'
  | 10 => 'a' | 11 => 'b' | 12 => 'c' | 13 => 'd' | 14 => 'e' | _ => 'f'

/-- How `json.dump` with `ensure_ascii=False` writes one character inside a
string literal: quote, backslash and the named control characters get a
two-character escape, the remaining control characters get `\u00xx`, and
everything else — non-ASCII included — is written literally. -/
def escChar (c : Char) : List Char :=
  if c = '"' then ['\\', '"']
  else if c = '\\' then ['\\', '\\']
  else if c = '\n' then ['\\', 'n']
  else if c = '\r' then ['\\', 'r']
  else if c = '\t' then ['\\', 't']
  else if c = '\x08' then ['\\', 'b']
  else if c = '\x0c' then ['\\', 'f']
  else if c.toNat < 32 then
    ['\\', 'u', '0', '0', hexDigitChar (c.toNat / 16), hexDigitChar (c.toNat % 16)]
  else [c]

/-- The body of a serialized string literal. -/
def escBody (cs : List Char) : List Char := cs.foldr (fun c acc => escChar c ++ acc) []

/-- A serialized string literal, quotes included. -/
def serStrChars (s : String) : List Char := '"' :: (escBody s.data ++ ['"'])

/-! ## The serializer: `json.dump(v, f, ensure_ascii=False, indent=2)` -/

/-- `n` spaces. -/
def sp (n : Nat) : List Char := List.replicate n ' '

mutual

/-- Serialization of one value at nesting level `lvl` (each level indents
its children by two more spaces, as `indent=2` does). -/
def serVal (lvl : Nat) : JSON → List Char
  | .null => ['n', 'u', 'l', 'l']
  | .bool false => ['f', 'a', 'l', 's', 'e']
  | .bool true => ['t', 'r', 'u', 'e']
  | .num q => serNumChars q
  | .str s => serStrChars s
  | .arr [] => ['[', ']']
  | .arr (x :: xs) => '[' :: (serItems lvl x xs ++ '\n' :: (sp (2 * lvl) ++ [']']))
  | .obj [] => ['\x7b', '\x7d']
  | .obj ((k, v) :: fs) => '\x7b' :: (serFields lvl k v fs ++ '\n' :: (sp (2 * lvl) ++ ['\x7d']))
termination_by v => sizeOf v

/-- The items of a non-empty array: each on its own line, indented one level
deeper, separated by commas. -/
def serItems (lvl : Nat) (x : JSON) (xs : List JSON) : List Char :=
  '\n' :: (sp (2 * (lvl + 1)) ++ serVal (lvl + 1) x
    ++ match xs with
       | [] => []
       | y :: ys => ',' :: serItems lvl y ys)
termination_by sizeOf x + sizeOf xs
decreasing_by
all_goals simp_wf
· cases xs <;> simp_arith
· omega

/-- The members of a non-empty object: `"key": value` lines, indented one
level deeper, separated by commas. -/
def serFields (lvl : Nat) (k : String) (v : JSON)
    (fs : List (String × JSON)) : List Char :=
  '\n' :: (sp (2 * (lvl + 1)) ++ serStrChars k ++ ':' :: ' ' :: serVal (lvl + 1) v
    ++ match fs with
       | [] => []
       | (k₂, v₂) :: gs => ',' :: serFields lvl k₂ v₂ gs)
termination_by sizeOf v + sizeOf fs
decreasing_by
all_goals simp_wf
· cases fs <;> simp_arith
· omega

end

/-- What `json.dump(v, f, ensure_ascii=False, indent=2)` writes to the file. -/
def jsonSerialize (v : JSON) : String := String.mk (serVal 0 v)

/-! ## The parser: `json.loads` on the file contents -/

/-- JSON whitespace. -/
def isWs (c : Char) : Bool := c = ' ' || c = '\n' || c = '\t' || c = '\r'

/-- Skip insignificant whitespace. -/
def skipWs (cs : List Char) : List Char := cs.dropWhile isWs

/-- Strip an expected literal from the front of the input. -/
def stripPre : List Char → List Char → Option (List Char)
  | [], cs => some cs
  | p :: ps, c :: cs => if c = p then stripPre ps cs else none
  | _ :: _, [] => none

/-- The longest run of decimal digits at the front of the input, and the
rest. -/
def takeDigits : List Char → List Char × List Char
  | [] => ([], [])
  | c :: cs =>
    if c.isDigit then
      let (ds, rest) := takeDigits cs
      (c :: ds, rest)
    else ([], c :: cs)

/-- The value of a lowercase/uppercase hexadecimal digit. -/
def hexVal? (c : Char) : Option Nat :=
  if '0' ≤ c ∧ c ≤ '9' then some (c.toNat - 48)
  else if 'a' ≤ c ∧ c ≤ 'f' then some (c.toNat - 87)
  else if 'A' ≤ c ∧ c ≤ 'F' then some (c.toNat - 55)
  else none

/-- The body of a JSON string literal, from just after the opening quote to
the closing quote: the decoded characters and the rest of the input.
Escapes are decoded as `json.loads` decodes them; a `\uXXXX` escape naming
a lone surrogate is rejected rather than decoded (the serializer in this
file never writes one). -/
def strBody : List Char → Option (List Char × List Char)
  | [] => none
  | c :: cs =>
    if c = '"' then some ([], cs)
    else if c = '\\' then
      match cs with
      | [] => none
      | e :: cs₂ =>
        if e = '"' then (strBody cs₂).map (fun p => ('"' :: p.1, p.2))
        else if e = '\\' then (strBody cs₂).map (fun p => ('\\' :: p.1, p.2))
        else if e = '/' then (strBody cs₂).map (fun p => ('/' :: p.1, p.2))
        else if e = 'b' then (strBody cs₂).map (fun p => ('\x08' :: p.1, p.2))
        else if e = 'f' then (strBody cs₂).map (fun p => ('\x0c' :: p.1, p.2))
        else if e = 'n' then (strBody cs₂).map (fun p => ('\n' :: p.1, p.2))
        else if e = 'r' then (strBody cs₂).map (fun p => ('\r' :: p.1, p.2))
        else if e = 't' then (strBody cs₂).map (fun p => ('\t' :: p.1, p.2))
        else if e = 'u' then
          match cs₂ with
          | h₁ :: h₂ :: h₃ :: h₄ :: cs₃ =>
            match hexVal? h₁, hexVal? h₂, hexVal? h₃, hexVal? h₄ with
            | some a, some b, some c₁, some d =>
              let n := ((a * 16 + b) * 16 + c₁) * 16 + d
              if n.isValidChar then
                (strBody cs₃).map (fun p => (Char.ofNat n :: p.1, p.2))
              else none
            | _, _, _, _ => none
          | _ => none
        else none
    else if c.toNat < 32 then none
    else (strBody cs).map (fun p => (c :: p.1, p.2))
termination_by cs => cs.length
decreasing_by all_goals simp_wf <;> omega

/-- An optional exponent part after the mantissa (`e` / `E` already
consumed): signed digits. -/
def parseExp (cs : List Char) : Option (Int × List Char) :=
  let (eneg, cs₁) :=
    match cs with
    | c :: rest => if c = '+' then (false, rest) else if c = '-' then (true, rest) else (false, cs)
    | [] => (false, cs)
  let (es, cs₂) := takeDigits cs₁
  if es = [] then none
  else some ((if eneg then -(digitsVal es : Int) else (digitsVal es : Int)), cs₂)

/-- A JSON number: optional minus sign, integer digits, optional fraction,
optional exponent, valued as an exact rational. -/
def parseNumber (cs : List Char) : Option (ℚ × List Char) :=
  let (neg, cs₁) :=
    match cs with
    | c :: rest => if c = '-' then (true, rest) else (false, cs)
    | [] => (false, cs)
  let (ds, cs₂) := takeDigits cs₁
  if ds = [] then none
  else
    let cont : List Char → List Char → Option (ℚ × List Char) := fun fs cs₃ =>
      let fin : Int → List Char → Option (ℚ × List Char) := fun e cs₄ =>
        some ((if neg then -1 else 1)
                * ((digitsVal ds : ℚ) * 10 ^ fs.length + (digitsVal fs : ℚ))
                / 10 ^ fs.length * (10 : ℚ) ^ e,
              cs₄)
      match cs₃ with
      | c :: rest =>
        if c = 'e' ∨ c = 'E' then
          match parseExp rest with
          | some (e, cs₄) => fin e cs₄
          | none => none
        else fin 0 cs₃
      | [] => fin 0 cs₃
    match cs₂ with
    | c :: rest =>
      if c = '.' then
        let (fs, cs₃) := takeDigits rest
        if fs = [] then none else cont fs cs₃
      else cont [] cs₂
    | [] => cont [] cs₂

mutual

/-- One JSON value, by recursive descent with a fuel bound on nesting
depth. -/
def parseVal : Nat → List Char → Option (JSON × List Char)
  | 0, _ => none
  | fuel + 1, cs =>
    match skipWs cs with
    | [] => none
    | c :: rest =>
      if c = 'n' then (stripPre ['u', 'l', 'l'] rest).map (fun r => (JSON.null, r))
      else if c = 't' then (stripPre ['r', 'u', 'e'] rest).map (fun r => (JSON.bool true, r))
      else if c = 'f' then (stripPre ['a', 'l', 's', 'e'] rest).map (fun r => (JSON.bool false, r))
      else if c = '"' then (strBody rest).map (fun p => (JSON.str (String.mk p.1), p.2))
      else if c = '[' then
        match skipWs rest with
        | [] => none
        | c₂ :: rest₂ =>
          if c₂ = ']' then some (JSON.arr [], rest₂)
          else (parseItems fuel rest).map (fun p => (JSON.arr p.1, p.2))
      else if c = '\x7b' then
        match skipWs rest with
        | [] => none
        | c₂ :: rest₂ =>
          if c₂ = '\x7d' then some (JSON.obj [], rest₂)
          else (parseMembers fuel rest).map (fun p => (JSON.obj p.1, p.2))
      else (parseNumber (c :: rest)).map (fun p => (JSON.num p.1, p.2))

/-- The comma-separated items of a non-empty array, up to and including the
closing bracket. -/
def parseItems : Nat → List Char → Option (List JSON × List Char)
  | 0, _ => none
  | fuel + 1, cs =>
    match parseVal fuel cs with
    | none => none
    | some (v, rest) =>
      match skipWs rest with
      | [] => none
      | c :: rest₂ =>
        if c = ',' then
          match parseItems fuel rest₂ with
          | none => none
          | some (vs, rest₃) => some (v :: vs, rest₃)
        else if c = ']' then some ([v], rest₂)
        else none

/-- The comma-separated members of a non-empty object, up to and including
the closing brace. -/
def parseMembers : Nat → List Char → Option (List (String × JSON) × List Char)
  | 0, _ => none
  | fuel + 1, cs =>
    match skipWs cs with
    | [] => none
    | c₀ :: rest =>
      if c₀ = '"' then
        match strBody rest with
        | none => none
        | some (kcs, rest₁) =>
          match skipWs rest₁ with
          | [] => none
          | c₁ :: rest₂ =>
            if c₁ = ':' then
              match parseVal fuel rest₂ with
              | none => none
              | some (v, rest₃) =>
                match skipWs rest₃ with
                | [] => none
                | c₂ :: rest₄ =>
                  if c₂ = ',' then
                    match parseMembers fuel rest₄ with
                    | none => none
                    | some (ms, rest₅) => some ((String.mk kcs, v) :: ms, rest₅)
                  else if c₂ = '\x7d' then some ([(String.mk kcs, v)], rest₄)
                  else none
            else none
      else none

end

/-- `json.loads` on a whole document: one value, then only whitespace. -/
def jsonParse (s : String) : Option JSON :=
  match parseVal (s.length + 1) s.data with
  | some (v, rest) => if skipWs rest = [] then some v else none
  | none => none

/-! ## Python `float(...)` on the script's inputs -/

/-- The whitespace characters Python's `float(str)` strips from both ends. -/
def isPyWs (c : Char) : Bool :=
  c = ' ' || c = '\t' || c = '\n' || c = '\x0d' || c = '\x0b' || c = '\x0c'

/-- Stripping leading and trailing whitespace, as `float(str)` does before
parsing. -/
def trimChars (cs : List Char) : List Char :=
  ((cs.dropWhile isPyWs).reverse.dropWhile isPyWs).reverse

/-- Python `float(string)` on a decimal literal: optional sign, digits with
an optional fractional part (at least one digit on one side of the dot),
and an optional exponent; surrounding whitespace is stripped by the caller.
(`inf` / `nan` spellings and digit underscores are accepted by Python but
never reach this script's parsing of coordinate strings; they are outside
the model.) -/
def pyFloatLit (cs : List Char) : Option ℚ :=
  let (neg, cs₁) :=
    match cs with
    | c :: rest => if c = '+' then (false, rest) else if c = '-' then (true, rest) else (false, cs)
    | [] => (false, cs)
  let (ds, cs₂) := takeDigits cs₁
  let (fs, cs₃) :=
    match cs₂ with
    | c :: rest => if c = '.' then takeDigits rest else ([], cs₂)
    | [] => ([], cs₂)
  if ds = [] ∧ fs = [] then none
  else
    let mant : ℚ := (if neg then -1 else 1)
      * ((digitsVal ds : ℚ) * 10 ^ fs.length + (digitsVal fs : ℚ)) / 10 ^ fs.length
    match cs₃ with
    | [] => some mant
    | c :: rest =>
      if c = 'e' ∨ c = 'E' then
        match parseExp rest with
        | some (e, []) => some (mant * (10 : ℚ) ^ e)
        | _ => none
      else none

/-- Python `float(v)` on a decoded JSON value: numbers and booleans convert,
strings are parsed as decimal literals (`ValueError` on failure), anything
else is a `TypeError`. -/
def pyFloat (v : JSON) : Except PyErr ℚ :=
  match v with
  | .num q => Except.ok q
  | .bool b => Except.ok (if b then 1 else 0)
  | .str s =>
    match pyFloatLit (trimChars s.data) with
    | some q => Except.ok q
    | none => Except.error (.valueError "could not convert string to float")
  | _ => Except.error (.typeError "float() argument must be a string or a real number")

/-! ## `fetch_nominatim`: the result list to FeatureCollection mapping -/

/-- The empty FeatureCollection. -/
def emptyFC : JSON := .obj [("type", .str "FeatureCollection"), ("features", .arr [])]

open JSON in
/-- The response-to-GeoJSON part of `fetch_nominatim(query)`: the decoded
result list (the HTTP exchange that produced it is cut at the decoded-JSON
boundary).  An empty list gives the empty FeatureCollection; otherwise one
`Point` feature is built from the first result alone, in the source's
evaluation order: the three `r.get(...)` defaults never raise, then
`float(r["lon"])`, then `float(r["lat"])`. -/
def fetch_nominatim (results : List JSON) : Except PyErr JSON :=
  match results with
  | [] => Except.ok emptyFC
  | r :: _ => do
    let fields ← asObj r
    let name := getD fields "display_name" (.str "")
    let rtype := getD fields "type" (.str "")
    let category := getD fields "category" (.str "")
    let lonJ ← keyOf fields "lon"
    let lon ← pyFloat lonJ
    let latJ ← keyOf fields "lat"
    let lat ← pyFloat latJ
    pure (.obj [("type", .str "FeatureCollection"),
                ("features",
                 .arr [.obj [("type", .str "Feature"),
                             ("properties", .obj [("name", name),
                                                  ("type", rtype),
                                                  ("category", category)]),
                             ("geometry", .obj [("type", .str "Point"),
                                                ("coordinates",
                                                 .arr [.num lon, .num lat])])]])])

/-! ## `fetch_overpass`: tag splitting and query construction -/

/-- `tag.split("=", 1)` followed by unpacking into two names: the text
before the first `=` and everything after it, or a `ValueError` when the
separator does not occur. -/
def splitEq : List Char → Option (List Char × List Char)
  | [] => none
  | c :: cs =>
    if c = '=' then some ([], cs)
    else
      match splitEq cs with
      | some (a, b) => some (c :: a, b)
      | none => none

/-- The Overpass QL program `fetch_overpass` interpolates from the tag's
key and value, the area name and the timeout. -/
def overpassQL (key value area : String) (timeout : Nat) : String :=
  "\n[out:json][timeout:" ++ toString timeout ++ "];\narea[name=\"" ++ area
    ++ "\"]->.searchArea;\n(\n  nwr[\"" ++ key ++ "\"=\"" ++ value
    ++ "\"](area.searchArea);\n);\nout geom;\n"

/-- The request-construction part of `fetch_overpass(tag, area, timeout)`:
the Overpass QL program it sends, or the `ValueError` raised by unpacking a
tag with no `=`.  The HTTP exchange and the JSON decoding of the response
are cut at this boundary. -/
def fetch_overpass (tag area : String) (timeout : Nat) : Except PyErr String :=
  match splitEq tag.data with
  | none => Except.error (.valueError "not enough values to unpack (expected 2, got 1)")
  | some (k, v) => Except.ok (overpassQL (String.mk k) (String.mk v) area timeout)

/-! ## The entry point -/

/-- The parsed command line: `argparse` leaves an unpassed option as `None`
and `--output` defaults to `public/data.geojson`. -/
structure Args where
  query : Option String
  area : Option String
  nominatim : Option String
  output : String := "public/data.geojson"

/-- Python truthiness of an optional string: `None` and `""` are falsy. -/
def pyTruthy : Option String → Bool
  | none => false
  | some s => !(s == "")

/-- `Path(p).parent` as a string: everything before the last slash, `"."`
when there is no slash, `"/"` for a top-level absolute path. -/
def pathParent (p : String) : String :=
  match p.data.reverse.dropWhile (fun c => !(c = '/')) with
  | [] => "."
  | _ :: rest => if rest = [] then "/" else String.mk rest.reverse

/-- One observable side effect of a `main` run.  The two HTTP actions carry
what the script sends; the decoded responses are supplied as parameters of
`mainRun`. -/
inductive Eff where
  | printHelp : Eff
  | printErr : String → Eff
  | printOut : String → Eff
  | mkdirParents : String → Eff
  | httpOverpass : String → Eff
  | httpNominatim : String → Eff
  | writeFile : String → String → Eff
deriving DecidableEq, Repr

/-- How a run ends: `sys.exit(code)` / normal return, or an uncaught
exception (which CPython turns into a nonzero exit with a traceback). -/
inductive ExitStatus where
  | exited : Nat → ExitStatus
  | raised : PyErr → ExitStatus
deriving DecidableEq, Repr

/-- `len(geojson["features"])` on a FeatureCollection built by either flow
(the fallback 0 branches are unreachable on those values). -/
def featureCount (gj : JSON) : Nat :=
  match gj with
  | .obj fs =>
    match JSON.lookupField fs "features" with
    | some (.arr xs) => xs.length
    | _ => 0
  | _ => 0

/-- The `--query` branch of `main` after validation: progress line, request,
conversion, file write, completion line; an uncaught exception at any step
ends the run there. -/
def overpassFlow (q a out : String) (oresp : List (String × JSON)) :
    List Eff × ExitStatus :=
  let msg := Eff.printOut ("Fetching Overpass data: " ++ q ++ " in " ++ a ++ "...")
  match fetch_overpass q a 25 with
  | .error e => ([msg], .raised e)
  | .ok ql =>
    match overpass_to_geojson oresp with
    | .error e => ([msg, .httpOverpass ql], .raised e)
    | .ok gj =>
      ([msg, .httpOverpass ql, .writeFile out (jsonSerialize gj),
        .printOut ("Done. " ++ toString (featureCount gj) ++ " features written to " ++ out)],
       .exited 0)

/-- The `--nominatim` branch of `main`: progress line, request, mapping,
file write, completion line. -/
def nominatimFlow (nq out : String) (nresp : List JSON) :
    List Eff × ExitStatus :=
  let msg := Eff.printOut ("Fetching Nominatim data: " ++ nq ++ "...")
  match fetch_nominatim nresp with
  | .error e => ([msg, .httpNominatim nq], .raised e)
  | .ok gj =>
    ([msg, .httpNominatim nq, .writeFile out (jsonSerialize gj),
      .printOut ("Done. " ++ toString (featureCount gj) ++ " features written to " ++ out)],
     .exited 0)

/-- `main()`: validation, parent-directory creation, then one of the two
flows.  The decoded Overpass and Nominatim responses are parameters — each
run consults at most one of them.  Mirrors the source order: the missing-mode
check precedes `mkdir`, which precedes the `--area` check. -/
def mainRun (args : Args) (oresp : List (String × JSON)) (nresp : List JSON) :
    List Eff × ExitStatus :=
  if !pyTruthy args.query && !pyTruthy args.nominatim then
    ([.printHelp], .exited 1)
  else
    let mk := Eff.mkdirParents (pathParent args.output)
    if pyTruthy args.query then
      if !pyTruthy args.area then
        ([mk, .printErr "Error: --area is required with --query"], .exited 1)
      else
        let (acts, st) := overpassFlow (args.query.getD "") (args.area.getD "")
          args.output oresp
        (mk :: acts, st)
    else
      let (acts, st) := nominatimFlow (args.nominatim.getD "") args.output nresp
      (mk :: acts, st)

/-! ## Auxiliary measures and predicates for the round-trip proof -/

mutual

/-- A structural size bounding the parser fuel a value needs. -/
def sizeJ : JSON → Nat
  | .null => 1
  | .bool _ => 1
  | .num _ => 1
  | .str _ => 1
  | .arr xs => 1 + sizeL xs
  | .obj fs => 1 + sizeM fs
termination_by v => sizeOf v

/-- Size of an array's item list. -/
def sizeL : List JSON → Nat
  | [] => 0
  | x :: xs => 1 + sizeJ x + sizeL xs
termination_by xs => sizeOf xs
decreasing_by all_goals simp_wf <;> omega

/-- Size of an object's member list. -/
def sizeM : List (String × JSON) → Nat
  | [] => 0
  | (_, v) :: fs => 1 + sizeJ v + sizeM fs
termination_by fs => sizeOf fs
decreasing_by all_goals simp_wf <;> omega

end

mutual

/-- Every number in the value is an exact decimal (its denominator divides
a power of ten).  Every number the script handles comes from decimal text —
a decoded JSON literal or a parsed `float` string — so every
FeatureCollection either flow produces satisfies this. -/
def numsDecimal : JSON → Bool
  | .null => true
  | .bool _ => true
  | .num q => (decExp? q).isSome
  | .str _ => true
  | .arr xs => numsDecimalList xs
  | .obj fs => numsDecimalFields fs

/-- `numsDecimal` over an array's items. -/
def numsDecimalList : List JSON → Bool
  | [] => true
  | x :: xs => numsDecimal x && numsDecimalList xs

/-- `numsDecimal` over an object's members. -/
def numsDecimalFields : List (String × JSON) → Bool
  | [] => true
  | (_, v) :: fs => numsDecimal v && numsDecimalFields fs

end

/-! ## Theorems.  First, digit rendering and parsing. -/

theorem digitsVal_go (a : Nat) (ys : List Char) :
    List.foldl (fun a c => a * 10 + (c.toNat - 48)) a ys
      = a * 10 ^ ys.length + digitsVal ys := by
  induction ys generalizing a with
  | nil => simp [digitsVal]
  | cons y ys ih =>
    have hy : digitsVal (y :: ys) = List.foldl (fun a c => a * 10 + (c.toNat - 48))
        (y.toNat - 48) ys := by
      simp [digitsVal]
    simp only [List.foldl_cons, List.length_cons]
    rw [ih, hy, ih (y.toNat - 48)]
    ring

theorem digitsVal_append (xs ys : List Char) :
    digitsVal (xs ++ ys) = digitsVal xs * 10 ^ ys.length + digitsVal ys := by
  unfold digitsVal
  rw [List.foldl_append]
  exact digitsVal_go _ ys

theorem digitChar_toNat (k : Nat) (h : k < 10) : (digitChar k).toNat - 48 = k := by
  interval_cases k <;> decide

theorem digitChar_isDigit (k : Nat) (h : k < 10) : (digitChar k).isDigit = true := by
  interval_cases k <;> decide

theorem digitsVal_natDigits (n : Nat) : digitsVal (natDigits n) = n := by
  induction n using Nat.strong_induction_on with
  | _ n ih =>
    match n with
    | 0 => simp [natDigits, natDigitsAux, digitsVal]
    | m + 1 =>
      have hrec : natDigitsAux (m + 1)
          = digitChar ((m + 1) % 10) :: natDigitsAux ((m + 1) / 10) := by
        rw [natDigitsAux]
      have hlt : (m + 1) / 10 < m + 1 := Nat.div_lt_self (Nat.succ_pos m) (by norm_num)
      have := ih ((m + 1) / 10) hlt
      unfold natDigits at this ⊢
      rw [hrec, List.reverse_cons, digitsVal_append, this]
      have hd : digitsVal [digitChar ((m + 1) % 10)] = (m + 1) % 10 := by
        simp [digitsVal, digitChar_toNat _ (Nat.mod_lt _ (by norm_num))]
      rw [hd]
      simp
      omega

theorem natDigits_all_digit (n : Nat) : ∀ c ∈ natDigits n, c.isDigit = true := by
  induction n using Nat.strong_induction_on with
  | _ n ih =>
    match n with
    | 0 => simp [natDigits, natDigitsAux]
    | m + 1 =>
      have hrec : natDigitsAux (m + 1)
          = digitChar ((m + 1) % 10) :: natDigitsAux ((m + 1) / 10) := by
        rw [natDigitsAux]
      have hlt : (m + 1) / 10 < m + 1 := Nat.div_lt_self (Nat.succ_pos m) (by norm_num)
      have hi := ih ((m + 1) / 10) hlt
      unfold natDigits at hi ⊢
      rw [hrec, List.reverse_cons]
      intro c hc
      rcases List.mem_append.mp hc with h | h
      · exact hi c h
      · rcases List.mem_singleton.mp h with rfl
        exact digitChar_isDigit _ (Nat.mod_lt _ (by norm_num))

theorem natDigits_length_le (n k : Nat) (h : n < 10 ^ k) : (natDigits n).length ≤ k := by
  induction n using Nat.strong_induction_on generalizing k with
  | _ n ih =>
    match n with
    | 0 => simp [natDigits, natDigitsAux]
    | m + 1 =>
      match k with
      | 0 => omega
      | k + 1 =>
        have hrec : natDigitsAux (m + 1)
            = digitChar ((m + 1) % 10) :: natDigitsAux ((m + 1) / 10) := by
          rw [natDigitsAux]
        have hlt : (m + 1) / 10 < m + 1 := Nat.div_lt_self (Nat.succ_pos m) (by norm_num)
        have hdiv : (m + 1) / 10 < 10 ^ k := by
          have h10 : (10 : Nat) ^ (k + 1) = 10 ^ k * 10 := pow_succ 10 k
          exact Nat.div_lt_of_lt_mul (by omega)
        have := ih ((m + 1) / 10) hlt k hdiv
        unfold natDigits at this ⊢
        rw [hrec, List.reverse_cons, List.length_append]
        simp at this ⊢
        omega

theorem digitsVal_natChars (n : Nat) : digitsVal (natChars n) = n := by
  unfold natChars
  by_cases h : n = 0
  · simp [h, digitsVal]
  · simp [h, digitsVal_natDigits]

theorem natChars_all_digit (n : Nat) : ∀ c ∈ natChars n, c.isDigit = true := by
  unfold natChars
  by_cases h : n = 0
  · simp [h]
  · simp only [h, if_false]
    exact natDigits_all_digit n

theorem natChars_ne_nil (n : Nat) : natChars n ≠ [] := by
  unfold natChars
  by_cases h : n = 0
  · simp [h]
  · simp only [h, if_false]
    match n, h with
    | m + 1, _ =>
      unfold natDigits
      rw [natDigitsAux]
      simp

theorem takeDigits_of_digits (ds rest : List Char)
    (hds : ∀ c ∈ ds, c.isDigit = true)
    (hrest : ∀ c, rest.head? = some c → c.isDigit = false) :
    takeDigits (ds ++ rest) = (ds, rest) := by
  induction ds with
  | nil =>
    match rest with
    | [] => rfl
    | c :: cs =>
      have := hrest c rfl
      simp [takeDigits, this]
  | cons d ds ih =>
    have hd : d.isDigit = true := hds d (List.mem_cons_self _ _)
    have ih₂ := ih (fun c hc => hds c (List.mem_cons_of_mem _ hc))
    simp [takeDigits, hd, ih₂]

theorem stripPre_append (ps cs : List Char) : stripPre ps (ps ++ cs) = some cs := by
  induction ps with
  | nil => rfl
  | cons p ps ih => simp [stripPre, ih]

theorem skipWs_append_ws (ws cs : List Char) (h : ∀ c ∈ ws, isWs c = true) :
    skipWs (ws ++ cs) = skipWs cs := by
  induction ws with
  | nil => rfl
  | cons w ws ih =>
    have hw := h w (List.mem_cons_self _ _)
    simp only [List.cons_append, skipWs, List.dropWhile_cons, hw, if_true]
    exact ih (fun c hc => h c (List.mem_cons_of_mem _ hc))

theorem skipWs_of_head (cs : List Char) (h : ∀ c, cs.head? = some c → isWs c = false) :
    skipWs cs = cs := by
  match cs with
  | [] => rfl
  | c :: rest =>
    have := h c rfl
    simp [skipWs, List.dropWhile_cons, this]

theorem sp_all_ws (n : Nat) : ∀ c ∈ sp n, isWs c = true := by
  intro c hc
  have := List.eq_of_mem_replicate hc
  subst this
  rfl

/-! ## String literal round trip -/

theorem hexVal_hexDigitChar (k : Nat) (h : k < 16) : hexVal? (hexDigitChar k) = some k := by
  interval_cases k <;> decide

theorem strBody_escBody (cs rest : List Char) :
    strBody (escBody cs ++ '"' :: rest) = some (cs, rest) := by
  induction cs with
  | nil =>
    show strBody ('"' :: rest) = some ([], rest)
    rw [strBody.eq_def]; simp
  | cons c cs ih =>
    have hesc : escBody (c :: cs) = escChar c ++ escBody cs := by simp [escBody]
    rw [hesc, List.append_assoc]
    unfold escChar
    split_ifs with h₁ h₂ h₃ h₄ h₅ h₆ h₇ h₈
    · subst h₁; rw [List.cons_append, List.cons_append, List.nil_append,
        strBody.eq_def]; simp [ih]
    · subst h₂; rw [List.cons_append, List.cons_append, List.nil_append,
        strBody.eq_def]; simp [ih]
    · subst h₃; rw [List.cons_append, List.cons_append, List.nil_append,
        strBody.eq_def]; simp [ih]
    · subst h₄; rw [List.cons_append, List.cons_append, List.nil_append,
        strBody.eq_def]; simp [ih]
    · subst h₅; rw [List.cons_append, List.cons_append, List.nil_append,
        strBody.eq_def]; simp [ih]
    · subst h₆; rw [List.cons_append, List.cons_append, List.nil_append,
        strBody.eq_def]; simp [ih]
    · subst h₇; rw [List.cons_append, List.cons_append, List.nil_append,
        strBody.eq_def]; simp [ih]
    · -- the generic control-character escape \u00xx
      have hdiv : c.toNat / 16 < 16 := by omega
      have hmod : c.toNat % 16 < 16 := by omega
      have hvalid : c.toNat.isValidChar := Or.inl (by omega)
      have key : c.toNat / 16 * 16 + c.toNat % 16 = c.toNat := by omega
      simp only [List.cons_append, List.nil_append]
      rw [strBody.eq_def]
      simp only [hexVal_hexDigitChar _ hdiv, hexVal_hexDigitChar _ hmod]
      simp [hexVal?, ih, key, hvalid]
    · -- literal character
      simp only [List.cons_append, List.nil_append]
      rw [strBody.eq_def]
      simp [h₁, h₂, h₈, ih]

/-! ## Number round trip -/

theorem digitsVal_replicate_zero (j : Nat) (ds : List Char) :
    digitsVal (List.replicate j '0' ++ ds) = digitsVal ds := by
  induction j with
  | zero => simp
  | succ j ih =>
    rw [List.replicate_succ, List.cons_append]
    have : digitsVal ('0' :: (List.replicate j '0' ++ ds))
        = List.foldl (fun a c => a * 10 + (c.toNat - 48)) 0 (List.replicate j '0' ++ ds) := by
      simp [digitsVal]
    rw [this]
    exact ih

theorem padDigits_all_digit (k r : Nat) : ∀ c ∈ padDigits k r, c.isDigit = true := by
  intro c hc
  unfold padDigits at hc
  rcases List.mem_append.mp hc with h | h
  · rcases List.eq_of_mem_replicate h with rfl
    decide
  · exact natDigits_all_digit r c h

theorem padDigits_length (k r : Nat) (h : r < 10 ^ k) : (padDigits k r).length = k := by
  unfold padDigits
  have := natDigits_length_le r k h
  rw [List.length_append, List.length_replicate]
  omega

theorem digitsVal_padDigits (k r : Nat) : digitsVal (padDigits k r) = r := by
  unfold padDigits
  rw [digitsVal_replicate_zero, digitsVal_natDigits]

theorem isDigit_ne_special (c : Char) (h : c.isDigit = true) :
    c ≠ '-' ∧ c ≠ '.' ∧ c ≠ 'e' ∧ c ≠ 'E' ∧ c ≠ '+' := by
  refine ⟨?_, ?_, ?_, ?_, ?_⟩ <;> (intro hc; subst hc; simp [Char.isDigit] at h)

theorem decExp?_dvd (q : ℚ) (k : Nat) (h : decExp? q = some k) : q.den ∣ 10 ^ k := by
  unfold decExp? at h
  have := List.find?_some h
  simpa using this

theorem digitsVal_nil : digitsVal [] = 0 := rfl

theorem natChars_exists_cons (n : Nat) : ∃ d ds, natChars n = d :: ds := by
  match h : natChars n with
  | [] => exact absurd h (natChars_ne_nil n)
  | d :: ds => exact ⟨d, ds, rfl⟩

theorem parseNumber_int_core (sgn : Bool) (n : Nat) (rest : List Char)
    (hrest : ∀ c, rest.head? = some c → c.isDigit = false ∧ c ≠ '.' ∧ c ≠ 'e' ∧ c ≠ 'E') :
    parseNumber ((if sgn then ['-'] else []) ++ (natChars n ++ rest))
      = some ((if sgn then -1 else 1) * (n : ℚ), rest) := by
  obtain ⟨d, ds, hd⟩ := natChars_exists_cons n
  have hddig : d.isDigit = true := by
    have := natChars_all_digit n
    rw [hd] at this
    exact this d (List.mem_cons_self _ _)
  have hdne := isDigit_ne_special d hddig
  have htake : takeDigits (natChars n ++ rest) = (natChars n, rest) :=
    takeDigits_of_digits _ _ (natChars_all_digit n) (fun c hc => (hrest c hc).1)
  have hne : natChars n ≠ [] := natChars_ne_nil n
  cases sgn with
  | true =>
    simp only [if_true, List.cons_append, List.nil_append]
    unfold parseNumber
    simp only [reduceIte, htake, hne, if_false]
    cases rest with
    | nil => simp [digitsVal_natChars, digitsVal_nil]
    | cons c tail =>
      obtain ⟨hcd, hcdot, hce, hcE⟩ := hrest c rfl
      simp [hcdot, hce, hcE, digitsVal_natChars, digitsVal_nil]
  | false =>
    simp only [Bool.false_eq_true, reduceIte, List.nil_append]
    unfold parseNumber
    rw [hd, List.cons_append]
    simp only [hdne.1, if_false]
    rw [← List.cons_append, ← hd, htake]
    simp only [hne, if_false]
    cases rest with
    | nil => simp [digitsVal_natChars, digitsVal_nil]
    | cons c tail =>
      obtain ⟨hcd, hcdot, hce, hcE⟩ := hrest c rfl
      simp [hcdot, hce, hcE, digitsVal_natChars, digitsVal_nil]

theorem parseNumber_dec_core (sgn : Bool) (a r k : Nat) (hk : k ≠ 0) (hr : r < 10 ^ k)
    (rest : List Char)
    (hrest : ∀ c, rest.head? = some c → c.isDigit = false ∧ c ≠ '.' ∧ c ≠ 'e' ∧ c ≠ 'E') :
    parseNumber ((if sgn then ['-'] else []) ++ (natChars a ++ '.' :: (padDigits k r ++ rest)))
      = some ((if sgn then -1 else 1) * ((a : ℚ) * 10 ^ k + (r : ℚ)) / 10 ^ k, rest) := by
  obtain ⟨d, ds, hd⟩ := natChars_exists_cons a
  have hddig : d.isDigit = true := by
    have := natChars_all_digit a
    rw [hd] at this
    exact this d (List.mem_cons_self _ _)
  have hdne := isDigit_ne_special d hddig
  have htake1 : takeDigits (natChars a ++ '.' :: (padDigits k r ++ rest))
      = (natChars a, '.' :: (padDigits k r ++ rest)) := by
    apply takeDigits_of_digits _ _ (natChars_all_digit a)
    intro c hc
    simp only [List.head?_cons, Option.some_inj] at hc
    subst hc
    decide
  have htake2 : takeDigits (padDigits k r ++ rest) = (padDigits k r, rest) :=
    takeDigits_of_digits _ _ (padDigits_all_digit k r) (fun c hc => (hrest c hc).1)
  have hne : natChars a ≠ [] := natChars_ne_nil a
  have hlen : (padDigits k r).length = k := padDigits_length k r hr
  have hpadne : padDigits k r ≠ [] := by
    intro hnil
    rw [hnil] at hlen
    exact hk hlen.symm
  have hval : ∀ s : ℚ,
      s * ((digitsVal (natChars a) : ℚ) * 10 ^ (padDigits k r).length
            + (digitsVal (padDigits k r) : ℚ)) / 10 ^ (padDigits k r).length * (10 : ℚ) ^ (0 : Int)
        = s * ((a : ℚ) * 10 ^ k + (r : ℚ)) / 10 ^ k := by
    intro s
    rw [digitsVal_natChars, digitsVal_padDigits, hlen, zpow_zero, mul_one]
  cases sgn with
  | true =>
    simp only [if_true, List.cons_append, List.nil_append]
    unfold parseNumber
    simp only [reduceIte, htake1, hne, if_false, htake2, hpadne]
    cases rest with
    | nil => simpa using hval (-1)
    | cons c tail =>
      obtain ⟨hcd, hcdot, hce, hcE⟩ := hrest c rfl
      simpa [hce, hcE] using hval (-1)
  | false =>
    simp only [Bool.false_eq_true, reduceIte, List.nil_append]
    unfold parseNumber
    rw [hd, List.cons_append]
    simp only [hdne.1, if_false]
    rw [← List.cons_append, ← hd, htake1]
    simp only [hne, if_false, reduceIte, htake2, hpadne]
    cases rest with
    | nil => simpa using hval 1
    | cons c tail =>
      obtain ⟨hcd, hcdot, hce, hcE⟩ := hrest c rfl
      simpa [hce, hcE] using hval 1

theorem parseNumber_serNum (q : ℚ) (k : Nat) (hk : decExp? q = some k) (rest : List Char)
    (hrest : ∀ c, rest.head? = some c → c.isDigit = false ∧ c ≠ '.' ∧ c ≠ 'e' ∧ c ≠ 'E') :
    parseNumber (serNumChars q ++ rest) = some (q, rest) := by
  have hdvd : q.den ∣ 10 ^ k := decExp?_dvd q k hk
  have hdvdZ : (q.den : Int) ∣ (10 : Int) ^ k := by
    have := Int.natCast_dvd_natCast.mpr hdvd
    push_cast at this
    exact this
  have hT : (10 : Int) ^ k / (q.den : Int) * (q.den : Int) = (10 : Int) ^ k :=
    Int.ediv_mul_cancel hdvdZ
  have hTQ : (((10 : Int) ^ k / (q.den : Int) : Int) : ℚ) * (q.den : ℚ) = (10 : ℚ) ^ k := by
    have := congrArg (fun z : Int => (z : ℚ)) hT
    push_cast at this
    exact this
  have hden0 : (q.den : ℚ) ≠ 0 := by
    exact_mod_cast q.den_nz
  have hqden : (q.num : ℚ) = q * (q.den : ℚ) := (div_eq_iff hden0).mp (Rat.num_div_den q)
  have hmQ : ((q.num * ((10 : Int) ^ k / (q.den : Int)) : Int) : ℚ) = q * 10 ^ k := by
    push_cast
    rw [hqden, ← hTQ]
    ring
  have hpow0 : ((10 : ℚ) ^ k) ≠ 0 := by positivity
  unfold serNumChars
  rw [hk]
  dsimp only
  by_cases hk0 : k = 0
  · subst hk0
    have hden1 : q.den = 1 := Nat.dvd_one.mp (by simpa using hdvd)
    have hm : q.num * ((10 : Int) ^ 0 / (q.den : Int)) = q.num := by
      rw [hden1]
      simp
    have hq : ((q.num : Int) : ℚ) = q := by
      rw [hqden, hden1]
      simp
    simp only [reduceIte, hm]
    unfold intChars
    by_cases hneg : q.num < 0
    · rw [if_pos hneg]
      have hcore := parseNumber_int_core true q.num.natAbs rest hrest
      simp only [if_true, List.cons_append, List.nil_append] at hcore
      rw [List.cons_append, hcore]
      congr 2
      rw [Int.cast_natAbs, abs_of_neg hneg]
      push_cast
      rw [hq]
      ring
    · rw [if_neg hneg]
      have hcore := parseNumber_int_core false q.num.natAbs rest hrest
      simp only [Bool.false_eq_true, reduceIte, List.nil_append] at hcore
      rw [hcore]
      congr 2
      rw [Int.cast_natAbs, abs_of_nonneg (not_lt.mp hneg)]
      rw [hq]
      ring
  · rw [if_neg hk0]
    set m : Int := q.num * ((10 : Int) ^ k / (q.den : Int)) with hmdef
    set n : Nat := m.natAbs with hndef
    have hrlt : n % 10 ^ k < 10 ^ k := Nat.mod_lt _ (by positivity)
    have hnval : ((n / 10 ^ k : Nat) : ℚ) * 10 ^ k + ((n % 10 ^ k : Nat) : ℚ) = (n : ℚ) := by
      have hc := congrArg (fun z : Nat => (z : ℚ)) (Nat.div_add_mod n (10 ^ k))
      push_cast at hc
      linarith [hc]
    by_cases hneg : m < 0
    · rw [if_pos hneg]
      have hcore := parseNumber_dec_core true (n / 10 ^ k) (n % 10 ^ k) k hk0 hrlt rest hrest
      simp only [if_true, List.cons_append, List.nil_append, List.append_assoc] at hcore ⊢
      rw [hcore]
      congr 2
      rw [hnval, hndef, Int.cast_natAbs, abs_of_neg hneg]
      push_cast
      rw [hmQ]
      field_simp
    · rw [if_neg hneg]
      have hcore := parseNumber_dec_core false (n / 10 ^ k) (n % 10 ^ k) k hk0 hrlt rest hrest
      simp only [Bool.false_eq_true, reduceIte, List.nil_append, List.cons_append,
        List.append_assoc] at hcore ⊢
      rw [hcore]
      congr 2
      rw [hnval, hndef, Int.cast_natAbs, abs_of_nonneg (not_lt.mp hneg)]
      rw [hmQ]
      field_simp

/-! ## Serialized-value head facts and whitespace transparency -/

theorem sizeJ_pos (v : JSON) : 1 ≤ sizeJ v := by
  cases v <;> simp [sizeJ.eq_def]

theorem isDigit_ne_dispatch (c : Char) (h : c.isDigit = true) :
    c ≠ 'n' ∧ c ≠ 't' ∧ c ≠ 'f' ∧ c ≠ '"' ∧ c ≠ '[' ∧ c ≠ '\x7b' ∧ isWs c = false
      ∧ c ≠ ']' ∧ c ≠ '\x7d' := by
  have hne : ∀ d : Char, d.isDigit = false → c ≠ d := by
    intro d hd hcd
    subst hcd
    rw [hd] at h
    exact absurd h (by simp)
  refine ⟨hne 'n' (by decide), hne 't' (by decide), hne 'f' (by decide), hne '"' (by decide),
    hne '[' (by decide), hne '\x7b' (by decide), ?_, hne ']' (by decide),
    hne '\x7d' (by decide)⟩
  unfold isWs
  simp [hne ' ' (by decide), hne '\n' (by decide), hne '\t' (by decide),
    hne '\x0d' (by decide)]

theorem serNumChars_head (q : ℚ) :
    ∃ d ds, serNumChars q = d :: ds ∧ (d = '-' ∨ d.isDigit = true) := by
  unfold serNumChars
  match decExp? q with
  | none => exact ⟨'0', [], rfl, Or.inr (by decide)⟩
  | some k =>
    dsimp only
    by_cases hk0 : k = 0
    · subst hk0
      simp only [reduceIte]
      unfold intChars
      by_cases hneg : q.num * ((10 : Int) ^ 0 / (q.den : Int)) < 0
      · rw [if_pos hneg]
        exact ⟨'-', _, rfl, Or.inl rfl⟩
      · rw [if_neg hneg]
        obtain ⟨d, ds, hd⟩ := natChars_exists_cons
          (q.num * ((10 : Int) ^ 0 / (q.den : Int))).natAbs
        refine ⟨d, ds, hd, Or.inr ?_⟩
        have := natChars_all_digit (q.num * ((10 : Int) ^ 0 / (q.den : Int))).natAbs
        rw [hd] at this
        exact this d (List.mem_cons_self _ _)
    · rw [if_neg hk0]
      set m : Int := q.num * ((10 : Int) ^ k / (q.den : Int))
      by_cases hneg : m < 0
      · rw [if_pos hneg]
        exact ⟨'-', _, rfl, Or.inl rfl⟩
      · rw [if_neg hneg]
        obtain ⟨d, ds, hd⟩ := natChars_exists_cons (m.natAbs / 10 ^ k)
        rw [List.nil_append, hd]
        refine ⟨d, _, rfl, Or.inr ?_⟩
        have := natChars_all_digit (m.natAbs / 10 ^ k)
        rw [hd] at this
        exact this d (List.mem_cons_self _ _)

theorem serVal_head (lvl : Nat) (v : JSON) :
    ∃ c cs, serVal lvl v = c :: cs ∧ isWs c = false ∧ c ≠ ']' ∧ c ≠ '\x7d' := by
  match v with
  | .null => exact ⟨'n', _, by rw [serVal.eq_def], by decide, by decide, by decide⟩
  | .bool true => exact ⟨'t', _, by rw [serVal.eq_def], by decide, by decide, by decide⟩
  | .bool false => exact ⟨'f', _, by rw [serVal.eq_def], by decide, by decide, by decide⟩
  | .num q =>
    obtain ⟨d, ds, hd, hc⟩ := serNumChars_head q
    refine ⟨d, ds, by rw [serVal.eq_def]; dsimp only; rw [hd], ?_, ?_, ?_⟩ <;>
      rcases hc with rfl | hdig
    · decide
    · exact (isDigit_ne_dispatch d hdig).2.2.2.2.2.2.1
    · decide
    · exact (isDigit_ne_dispatch d hdig).2.2.2.2.2.2.2.1
    · decide
    · exact (isDigit_ne_dispatch d hdig).2.2.2.2.2.2.2.2
  | .str s =>
    exact ⟨'"', escBody s.data ++ ['"'], by rw [serVal.eq_def]; rfl, by decide, by decide,
      by decide⟩
  | .arr [] => exact ⟨'[', _, by rw [serVal.eq_def], by decide, by decide, by decide⟩
  | .arr (x :: xs) => exact ⟨'[', _, by rw [serVal.eq_def], by decide, by decide, by decide⟩
  | .obj [] => exact ⟨'\x7b', _, by rw [serVal.eq_def], by decide, by decide, by decide⟩
  | .obj ((k, v) :: fs) =>
    exact ⟨'\x7b', _, by rw [serVal.eq_def], by decide, by decide, by decide⟩

theorem parseVal_ws (fuel : Nat) (ws cs : List Char) (h : ∀ c ∈ ws, isWs c = true) :
    parseVal fuel (ws ++ cs) = parseVal fuel cs := by
  cases fuel with
  | zero => rfl
  | succ fuel =>
    rw [parseVal, parseVal, skipWs_append_ws ws cs h]

theorem String.mk_data (s : String) : String.mk s.data = s := by
  cases s
  rfl

theorem skipWs_nl_sp (j : Nat) (cs : List Char) :
    skipWs ('\n' :: (sp j ++ cs)) = skipWs cs := by
  have h : '\n' :: (sp j ++ cs) = ('\n' :: sp j) ++ cs := rfl
  rw [h, skipWs_append_ws]
  intro c hc
  rcases List.mem_cons.mp hc with rfl | hmem
  · rfl
  · exact sp_all_ws j c hmem

theorem parseVal_nl_sp (fuel : Nat) (j : Nat) (cs : List Char) :
    parseVal fuel ('\n' :: (sp j ++ cs)) = parseVal fuel cs := by
  have h : '\n' :: (sp j ++ cs) = ('\n' :: sp j) ++ cs := rfl
  rw [h]
  apply parseVal_ws
  intro c hc
  rcases List.mem_cons.mp hc with rfl | hmem
  · rfl
  · exact sp_all_ws j c hmem

theorem skipWs_serVal (lvl : Nat) (v : JSON) (cs : List Char) :
    skipWs (serVal lvl v ++ cs) = serVal lvl v ++ cs := by
  obtain ⟨c, cs', hc, hw, _, _⟩ := serVal_head lvl v
  rw [hc, List.cons_append]
  apply skipWs_of_head
  intro c' h
  simp only [List.head?_cons, Option.some_inj] at h
  subst h
  exact hw

theorem skipWs_cons_of (c₀ : Char) (tl : List Char) (h : isWs c₀ = false) :
    skipWs (c₀ :: tl) = c₀ :: tl := by
  simp [skipWs, List.dropWhile_cons, h]

theorem followOfHead (c₀ : Char) (tl : List Char)
    (h : c₀.isDigit = false ∧ c₀ ≠ '.' ∧ c₀ ≠ 'e' ∧ c₀ ≠ 'E') :
    ∀ c, (c₀ :: tl).head? = some c → c.isDigit = false ∧ c ≠ '.' ∧ c ≠ 'e' ∧ c ≠ 'E' := by
  intro c hc
  simp only [List.head?_cons, Option.some_inj] at hc
  subst hc
  exact h

/-! ## The printer–parser round trip -/

mutual

theorem parseVal_ser : ∀ (fuel : Nat) (v : JSON) (lvl : Nat) (rest : List Char),
    sizeJ v ≤ fuel → numsDecimal v = true →
    (∀ c, rest.head? = some c → c.isDigit = false ∧ c ≠ '.' ∧ c ≠ 'e' ∧ c ≠ 'E') →
    parseVal fuel (serVal lvl v ++ rest) = some (v, rest)
  | 0, v, _, _, hsz, _, _ => by
    have := sizeJ_pos v
    omega
  | fuel + 1, .null, lvl, rest, hsz, hdec, hrest => by
    rw [serVal.eq_def]
    dsimp only
    rw [show ((['n', 'u', 'l', 'l'] : List Char) ++ rest) = 'n' :: (['u', 'l', 'l'] ++ rest)
      from rfl]
    rw [parseVal, skipWs_cons_of _ _ (by decide)]
    simp [stripPre]
  | fuel + 1, .bool true, lvl, rest, hsz, hdec, hrest => by
    rw [serVal.eq_def]
    dsimp only
    rw [show ((['t', 'r', 'u', 'e'] : List Char) ++ rest) = 't' :: (['r', 'u', 'e'] ++ rest)
      from rfl]
    rw [parseVal, skipWs_cons_of _ _ (by decide)]
    simp [stripPre]
  | fuel + 1, .bool false, lvl, rest, hsz, hdec, hrest => by
    rw [serVal.eq_def]
    dsimp only
    rw [show ((['f', 'a', 'l', 's', 'e'] : List Char) ++ rest)
      = 'f' :: (['a', 'l', 's', 'e'] ++ rest) from rfl]
    rw [parseVal, skipWs_cons_of _ _ (by decide)]
    simp [stripPre]
  | fuel + 1, .num q, lvl, rest, hsz, hdec, hrest => by
    obtain ⟨k, hk⟩ : ∃ k, decExp? q = some k := by
      rw [numsDecimal] at hdec
      exact Option.isSome_iff_exists.mp hdec
    obtain ⟨d, ds, hd, hc⟩ := serNumChars_head q
    have hfacts : d ≠ 'n' ∧ d ≠ 't' ∧ d ≠ 'f' ∧ d ≠ '"' ∧ d ≠ '[' ∧ d ≠ '\x7b'
        ∧ isWs d = false := by
      rcases hc with rfl | hdig
      · exact ⟨by decide, by decide, by decide, by decide, by decide, by decide, by decide⟩
      · have h := isDigit_ne_dispatch d hdig
        exact ⟨h.1, h.2.1, h.2.2.1, h.2.2.2.1, h.2.2.2.2.1, h.2.2.2.2.2.1, h.2.2.2.2.2.2.1⟩
    rw [serVal.eq_def]
    dsimp only
    rw [parseVal, hd, List.cons_append, skipWs_cons_of _ _ hfacts.2.2.2.2.2.2]
    simp only [hfacts.1, hfacts.2.1, hfacts.2.2.1, hfacts.2.2.2.1, hfacts.2.2.2.2.1,
      hfacts.2.2.2.2.2.1, if_false, reduceIte]
    rw [← List.cons_append, ← hd, parseNumber_serNum q k hk rest hrest]
    rfl
  | fuel + 1, .str s, lvl, rest, hsz, hdec, hrest => by
    rw [serVal.eq_def]
    dsimp only
    unfold serStrChars
    rw [List.cons_append, parseVal, skipWs_cons_of _ _ (by decide)]
    simp only [reduceIte]
    rw [List.append_assoc, List.singleton_append, strBody_escBody]
    simp [String.mk_data]
  | fuel + 1, .arr [], lvl, rest, hsz, hdec, hrest => by
    rw [serVal.eq_def]
    dsimp only
    rw [show ((['[', ']'] : List Char) ++ rest) = '[' :: (']' :: rest) from rfl, parseVal]
    rw [skipWs_cons_of _ _ (by decide)]
    simp only [reduceIte]
    rw [skipWs_cons_of _ _ (by decide)]
    simp
  | fuel + 1, .arr (x :: xs), lvl, rest, hsz, hdec, hrest => by
    have hsz₂ : sizeL (x :: xs) ≤ fuel := by
      rw [sizeJ] at hsz
      omega
    have hdec₂ : numsDecimalList (x :: xs) = true := by
      rw [numsDecimal] at hdec
      exact hdec
    have ihItems := parseItems_ser fuel x xs lvl rest hsz₂ hdec₂
    rw [serVal.eq_def]
    dsimp only
    rw [List.cons_append, parseVal, skipWs_cons_of _ _ (by decide)]
    simp only [reduceIte]
    have harg : serItems lvl x xs ++ '\n' :: (sp (2 * lvl) ++ [']']) ++ rest
        = serItems lvl x xs ++ '\n' :: (sp (2 * lvl) ++ ']' :: rest) := by
      simp [List.append_assoc]
    rw [harg]
    obtain ⟨cx, csx, hx, hxw, hxbr, hxbr2⟩ := serVal_head (lvl + 1) x
    have hpeek : skipWs (serItems lvl x xs ++ '\n' :: (sp (2 * lvl) ++ ']' :: rest))
        = cx :: (csx ++ ((match xs with | [] => [] | y :: ys => ',' :: serItems lvl y ys)
            ++ '\n' :: (sp (2 * lvl) ++ ']' :: rest))) := by
      rw [serItems.eq_def]
      simp only [List.cons_append, List.append_assoc]
      rw [skipWs_nl_sp, skipWs_serVal, hx]
      cases xs <;> simp [List.append_assoc]
    rw [hpeek]
    simp only [hxbr, reduceIte, if_false]
    rw [ihItems]
    rfl
  | fuel + 1, .obj [], lvl, rest, hsz, hdec, hrest => by
    rw [serVal.eq_def]
    dsimp only
    rw [show ((['\x7b', '\x7d'] : List Char) ++ rest) = '\x7b' :: ('\x7d' :: rest) from rfl,
      parseVal]
    rw [skipWs_cons_of _ _ (by decide)]
    simp only [reduceIte]
    rw [skipWs_cons_of _ _ (by decide)]
    simp
  | fuel + 1, .obj ((k, v) :: fs), lvl, rest, hsz, hdec, hrest => by
    have hsz₂ : sizeM ((k, v) :: fs) ≤ fuel := by
      rw [sizeJ] at hsz
      omega
    have hdec₂ : numsDecimalFields ((k, v) :: fs) = true := by
      rw [numsDecimal] at hdec
      exact hdec
    have ihMems := parseMembers_ser fuel k v fs lvl rest hsz₂ hdec₂
    rw [serVal.eq_def]
    dsimp only
    rw [List.cons_append, parseVal, skipWs_cons_of _ _ (by decide)]
    simp only [reduceIte]
    have harg : serFields lvl k v fs ++ '\n' :: (sp (2 * lvl) ++ ['\x7d']) ++ rest
        = serFields lvl k v fs ++ '\n' :: (sp (2 * lvl) ++ '\x7d' :: rest) := by
      simp [List.append_assoc]
    rw [harg]
    have hpeek : skipWs (serFields lvl k v fs ++ '\n' :: (sp (2 * lvl) ++ '\x7d' :: rest))
        = '"' :: ((escBody k.data ++ ['"'])
            ++ (':' :: ' ' :: (serVal (lvl + 1) v
              ++ (match fs with | [] => [] | (k₂, v₂) :: gs => ',' :: serFields lvl k₂ v₂ gs))
              ++ '\n' :: (sp (2 * lvl) ++ '\x7d' :: rest))) := by
      rw [serFields.eq_def]
      unfold serStrChars
      simp only [List.cons_append, List.append_assoc]
      rw [skipWs_nl_sp, skipWs_cons_of _ _ (by decide)]
      cases fs <;> simp [List.append_assoc]
    rw [hpeek]
    simp only [reduceIte]
    rw [ihMems]
    rfl
termination_by fuel => fuel

theorem parseItems_ser : ∀ (fuel : Nat) (x : JSON) (xs : List JSON) (lvl : Nat)
    (rest : List Char),
    sizeL (x :: xs) ≤ fuel → numsDecimalList (x :: xs) = true →
    parseItems fuel (serItems lvl x xs ++ '\n' :: (sp (2 * lvl) ++ ']' :: rest))
      = some (x :: xs, rest)
  | 0, x, xs, _, _, hsz, _ => by
    rw [sizeL] at hsz
    omega
  | fuel + 1, x, [], lvl, rest, hsz, hdec => by
    have hszx : sizeJ x ≤ fuel := by
      rw [sizeL] at hsz
      rw [sizeL] at hsz
      omega
    have hdecx : numsDecimal x = true := by
      rw [numsDecimalList] at hdec
      rw [Bool.and_eq_true] at hdec
      exact hdec.1
    rw [parseItems]
    have hv : parseVal fuel (serItems lvl x [] ++ '\n' :: (sp (2 * lvl) ++ ']' :: rest))
        = some (x, '\n' :: (sp (2 * lvl) ++ ']' :: rest)) := by
      rw [serItems.eq_def]
      simp only [List.cons_append, List.append_assoc, List.nil_append]
      rw [parseVal_nl_sp]
      exact parseVal_ser fuel x (lvl + 1) _ hszx hdecx
        (followOfHead _ _ ⟨by decide, by decide, by decide, by decide⟩)
    rw [hv]
    dsimp only
    rw [skipWs_nl_sp, skipWs_cons_of _ _ (by decide)]
    simp
  | fuel + 1, x, y :: ys, lvl, rest, hsz, hdec => by
    have hszx : sizeJ x ≤ fuel := by
      rw [sizeL] at hsz
      omega
    have hszr : sizeL (y :: ys) ≤ fuel := by
      rw [sizeL] at hsz
      have := sizeJ_pos x
      omega
    have hdec' : numsDecimal x = true ∧ numsDecimalList (y :: ys) = true := by
      rw [numsDecimalList, Bool.and_eq_true] at hdec
      exact hdec
    have ihItems := parseItems_ser fuel y ys lvl rest hszr hdec'.2
    rw [parseItems]
    have hv : parseVal fuel (serItems lvl x (y :: ys) ++ '\n' :: (sp (2 * lvl) ++ ']' :: rest))
        = some (x, ',' :: (serItems lvl y ys ++ '\n' :: (sp (2 * lvl) ++ ']' :: rest))) := by
      rw [serItems.eq_def]
      simp only [List.cons_append, List.append_assoc]
      rw [parseVal_nl_sp]
      exact parseVal_ser fuel x (lvl + 1) _ hszx hdec'.1
        (followOfHead _ _ ⟨by decide, by decide, by decide, by decide⟩)
    rw [hv]
    dsimp only
    rw [skipWs_cons_of _ _ (by decide)]
    simp only [reduceIte]
    rw [ihItems]
termination_by fuel => fuel

theorem parseMembers_ser : ∀ (fuel : Nat) (k : String) (v : JSON)
    (fs : List (String × JSON)) (lvl : Nat) (rest : List Char),
    sizeM ((k, v) :: fs) ≤ fuel → numsDecimalFields ((k, v) :: fs) = true →
    parseMembers fuel (serFields lvl k v fs ++ '\n' :: (sp (2 * lvl) ++ '\x7d' :: rest))
      = some ((k, v) :: fs, rest)
  | 0, k, v, fs, _, _, hsz, _ => by
    rw [sizeM] at hsz
    omega
  | fuel + 1, k, v, [], lvl, rest, hsz, hdec => by
    have hszv : sizeJ v ≤ fuel := by
      rw [sizeM] at hsz
      rw [sizeM] at hsz
      omega
    have hdecv : numsDecimal v = true := by
      rw [numsDecimalFields, Bool.and_eq_true] at hdec
      exact hdec.1
    rw [parseMembers]
    have hpeek : skipWs (serFields lvl k v [] ++ '\n' :: (sp (2 * lvl) ++ '\x7d' :: rest))
        = '"' :: (escBody k.data
            ++ '"' :: ':' :: ' ' :: (serVal (lvl + 1) v
              ++ '\n' :: (sp (2 * lvl) ++ '\x7d' :: rest))) := by
      rw [serFields.eq_def]
      unfold serStrChars
      simp only [List.cons_append, List.append_assoc, List.nil_append]
      rw [skipWs_nl_sp, skipWs_cons_of _ _ (by decide)]
    rw [hpeek]
    simp only [reduceIte]
    rw [show (escBody k.data ++ '"' :: ':' :: ' ' :: (serVal (lvl + 1) v
        ++ '\n' :: (sp (2 * lvl) ++ '\x7d' :: rest)))
      = (escBody k.data ++ '"' :: (':' :: ' ' :: (serVal (lvl + 1) v
        ++ '\n' :: (sp (2 * lvl) ++ '\x7d' :: rest)))) from rfl]
    rw [strBody_escBody]
    dsimp only
    rw [skipWs_cons_of _ _ (by decide)]
    simp only [reduceIte]
    have hv : parseVal fuel (' ' :: (serVal (lvl + 1) v
        ++ '\n' :: (sp (2 * lvl) ++ '\x7d' :: rest)))
        = some (v, '\n' :: (sp (2 * lvl) ++ '\x7d' :: rest)) := by
      rw [show (' ' :: (serVal (lvl + 1) v ++ '\n' :: (sp (2 * lvl) ++ '\x7d' :: rest)))
        = [' '] ++ (serVal (lvl + 1) v ++ '\n' :: (sp (2 * lvl) ++ '\x7d' :: rest)) from rfl]
      rw [parseVal_ws fuel [' '] _ (by intro c hc; simp at hc; subst hc; rfl)]
      exact parseVal_ser fuel v (lvl + 1) _ hszv hdecv
        (followOfHead _ _ ⟨by decide, by decide, by decide, by decide⟩)
    rw [hv]
    dsimp only
    rw [skipWs_nl_sp, skipWs_cons_of _ _ (by decide)]
    simp [String.mk_data]
  | fuel + 1, k, v, (k₂, v₂) :: gs, lvl, rest, hsz, hdec => by
    have hszv : sizeJ v ≤ fuel := by
      rw [sizeM] at hsz
      omega
    have hszr : sizeM ((k₂, v₂) :: gs) ≤ fuel := by
      rw [sizeM] at hsz
      have := sizeJ_pos v
      omega
    have hdec' : numsDecimal v = true ∧ numsDecimalFields ((k₂, v₂) :: gs) = true := by
      rw [numsDecimalFields, Bool.and_eq_true] at hdec
      exact hdec
    have ihMems := parseMembers_ser fuel k₂ v₂ gs lvl rest hszr hdec'.2
    rw [parseMembers]
    have hpeek : skipWs (serFields lvl k v ((k₂, v₂) :: gs)
          ++ '\n' :: (sp (2 * lvl) ++ '\x7d' :: rest))
        = '"' :: (escBody k.data
            ++ '"' :: ':' :: ' ' :: (serVal (lvl + 1) v
              ++ ',' :: (serFields lvl k₂ v₂ gs
                ++ '\n' :: (sp (2 * lvl) ++ '\x7d' :: rest)))) := by
      rw [serFields.eq_def]
      unfold serStrChars
      simp only [List.cons_append, List.append_assoc]
      rw [skipWs_nl_sp, skipWs_cons_of _ _ (by decide)]
      simp [List.append_assoc]
    rw [hpeek]
    simp only [reduceIte]
    rw [show (escBody k.data ++ '"' :: ':' :: ' ' :: (serVal (lvl + 1) v
        ++ ',' :: (serFields lvl k₂ v₂ gs ++ '\n' :: (sp (2 * lvl) ++ '\x7d' :: rest))))
      = (escBody k.data ++ '"' :: (':' :: ' ' :: (serVal (lvl + 1) v
        ++ ',' :: (serFields lvl k₂ v₂ gs ++ '\n' :: (sp (2 * lvl) ++ '\x7d' :: rest)))))
      from rfl]
    rw [strBody_escBody]
    dsimp only
    rw [skipWs_cons_of _ _ (by decide)]
    simp only [reduceIte]
    have hv : parseVal fuel (' ' :: (serVal (lvl + 1) v
        ++ ',' :: (serFields lvl k₂ v₂ gs ++ '\n' :: (sp (2 * lvl) ++ '\x7d' :: rest))))
        = some (v, ',' :: (serFields lvl k₂ v₂ gs
            ++ '\n' :: (sp (2 * lvl) ++ '\x7d' :: rest))) := by
      rw [show (' ' :: (serVal (lvl + 1) v ++ ',' :: (serFields lvl k₂ v₂ gs
          ++ '\n' :: (sp (2 * lvl) ++ '\x7d' :: rest))))
        = [' '] ++ (serVal (lvl + 1) v ++ ',' :: (serFields lvl k₂ v₂ gs
          ++ '\n' :: (sp (2 * lvl) ++ '\x7d' :: rest))) from rfl]
      rw [parseVal_ws fuel [' '] _ (by intro c hc; simp at hc; subst hc; rfl)]
      exact parseVal_ser fuel v (lvl + 1) _ hszv hdec'.1
        (followOfHead _ _ ⟨by decide, by decide, by decide, by decide⟩)
    rw [hv]
    dsimp only
    rw [skipWs_cons_of _ _ (by decide)]
    simp only [reduceIte]
    rw [ihMems]
termination_by fuel => fuel

end

mutual

theorem sizeJ_le_len : ∀ (lvl : Nat) (v : JSON), sizeJ v ≤ (serVal lvl v).length
  | lvl, .null => by rw [sizeJ.eq_def, serVal.eq_def]; simp
  | lvl, .bool true => by rw [sizeJ.eq_def, serVal.eq_def]; simp
  | lvl, .bool false => by rw [sizeJ.eq_def, serVal.eq_def]; simp
  | lvl, .num q => by
    obtain ⟨d, ds, hd, _⟩ := serNumChars_head q
    rw [sizeJ.eq_def, serVal.eq_def]
    dsimp only
    rw [hd]
    simp
  | lvl, .str s => by rw [sizeJ.eq_def, serVal.eq_def]; unfold serStrChars; simp
  | lvl, .arr [] => by rw [sizeJ.eq_def, serVal.eq_def]; simp [sizeL]
  | lvl, .arr (x :: xs) => by
    have h := sizeL_le_len lvl x xs
    rw [sizeJ.eq_def, serVal.eq_def]
    dsimp only
    simp only [List.length_cons, List.length_append]
    omega
  | lvl, .obj [] => by rw [sizeJ.eq_def, serVal.eq_def]; simp [sizeM]
  | lvl, .obj ((k, v) :: fs) => by
    have h := sizeM_le_len lvl k v fs
    rw [sizeJ.eq_def, serVal.eq_def]
    dsimp only
    simp only [List.length_cons, List.length_append]
    omega
termination_by lvl v => sizeOf v

theorem sizeL_le_len : ∀ (lvl : Nat) (x : JSON) (xs : List JSON),
    sizeL (x :: xs) ≤ (serItems lvl x xs).length
  | lvl, x, [] => by
    have h := sizeJ_le_len (lvl + 1) x
    rw [sizeL.eq_def, serItems.eq_def]
    dsimp only
    simp only [List.length_cons, List.length_append, sizeL]
    omega
  | lvl, x, y :: ys => by
    have h := sizeJ_le_len (lvl + 1) x
    have h₂ := sizeL_le_len lvl y ys
    rw [sizeL.eq_def, serItems.eq_def]
    dsimp only
    simp only [List.length_cons, List.length_append]
    omega
termination_by lvl x xs => sizeOf x + sizeOf xs
decreasing_by
all_goals simp_wf
all_goals omega

theorem sizeM_le_len : ∀ (lvl : Nat) (k : String) (v : JSON) (fs : List (String × JSON)),
    sizeM ((k, v) :: fs) ≤ (serFields lvl k v fs).length
  | lvl, k, v, [] => by
    have h := sizeJ_le_len (lvl + 1) v
    rw [sizeM.eq_def, serFields.eq_def]
    dsimp only
    simp only [List.length_cons, List.length_append, sizeM]
    omega
  | lvl, k, v, (k₂, v₂) :: gs => by
    have h := sizeJ_le_len (lvl + 1) v
    have h₂ := sizeM_le_len lvl k₂ v₂ gs
    rw [sizeM.eq_def, serFields.eq_def]
    dsimp only
    simp only [List.length_cons, List.length_append]
    omega
termination_by lvl k v fs => sizeOf v + sizeOf fs
decreasing_by
all_goals simp_wf
all_goals omega

end

/-- The round trip at the heart of the output step: the text `json.dump`
writes reparses, by `json.loads`, to the very value written, provided every
number in the value is an exact decimal — which every value the script
serializes is, its numbers all having entered through decimal text. -/
theorem jsonParse_serialize (v : JSON) (h : numsDecimal v = true) :
    jsonParse (jsonSerialize v) = some v := by
  unfold jsonParse jsonSerialize
  have hp := parseVal_ser ((String.mk (serVal 0 v)).length + 1) v 0 []
    (by
      have h₁ := sizeJ_le_len 0 v
      have h₂ : (String.mk (serVal 0 v)).length = (serVal 0 v).length := rfl
      omega)
    h
    (by intro c hc; simp at hc)
  rw [List.append_nil] at hp
  have hdata : (String.mk (serVal 0 v)).data = serVal 0 v := rfl
  rw [hdata, hp]
  simp [skipWs]

/-! ## Claim theorems -/

theorem splitEq_no_sep (cs : List Char) (h : '=' ∉ cs) : splitEq cs = none := by
  induction cs with
  | nil => rfl
  | cons c cs ih =>
    have hc : c ≠ '=' := fun hc => h (hc ▸ List.mem_cons_self c cs)
    have ih₂ := ih (fun hm => h (List.mem_cons_of_mem c hm))
    rw [splitEq]
    simp [hc, ih₂]

theorem splitEq_first (s t : List Char) (h : '=' ∉ s) : splitEq (s ++ '=' :: t) = some (s, t) := by
  induction s with
  | nil => rfl
  | cons c cs ih =>
    have hc : c ≠ '=' := fun hc => h (hc ▸ List.mem_cons_self c cs)
    have ih₂ := ih (fun hm => h (List.mem_cons_of_mem c hm))
    rw [List.cons_append, splitEq]
    simp [hc, ih₂]

/-- C7: the tag filter splits on the first `=` only — for `"a=b=c"` the key
is `"a"` and the value `"b=c"` — and on a tag with no `=` at all,
`fetch_overpass` raises the unpacking `ValueError` instead of returning a
query. -/
theorem C7_tag_split :
    fetch_overpass "a=b=c" "X" 25 = Except.ok (overpassQL "a" "b=c" "X" 25)
    ∧ (∀ s t : List Char, '=' ∉ s → splitEq (s ++ '=' :: t) = some (s, t))
    ∧ (∀ tag area : String, ∀ timeout : Nat, '=' ∉ tag.data →
        fetch_overpass tag area timeout
          = Except.error (.valueError "not enough values to unpack (expected 2, got 1)")) := by
  refine ⟨by decide, splitEq_first, ?_⟩
  intro tag area timeout h
  unfold fetch_overpass
  rw [splitEq_no_sep tag.data h]

/-- Witness for C7 at concrete inputs: the tag `"highway"` has no `=`, so
the call fails with the `ValueError`. -/
theorem C7_tag_split_witness :
    fetch_overpass "highway" "Tokyo" 25
      = Except.error (.valueError "not enough values to unpack (expected 2, got 1)") :=
  C7_tag_split.2.2 "highway" "Tokyo" 25 (by decide)

/-- C4: with neither `--query` nor `--nominatim` the run prints usage and
exits with code 1; with `--query` but no `--area` it prints the error line
to stderr and exits with code 1; neither run writes an output file. -/
theorem C4_validation :
    (∀ (args : Args) (oresp : List (String × JSON)) (nresp : List JSON),
       pyTruthy args.query = false → pyTruthy args.nominatim = false →
       mainRun args oresp nresp = ([Eff.printHelp], .exited 1)
         ∧ ∀ p c, Eff.writeFile p c ∉ (mainRun args oresp nresp).1)
    ∧ (∀ (args : Args) (oresp : List (String × JSON)) (nresp : List JSON),
       pyTruthy args.query = true → pyTruthy args.area = false →
       mainRun args oresp nresp
         = ([Eff.mkdirParents (pathParent args.output),
             Eff.printErr "Error: --area is required with --query"], .exited 1)
         ∧ ∀ p c, Eff.writeFile p c ∉ (mainRun args oresp nresp).1) := by
  constructor
  · intro args oresp nresp h₁ h₂
    have hr : mainRun args oresp nresp = ([Eff.printHelp], .exited 1) := by
      unfold mainRun
      rw [h₁, h₂]
      rfl
    refine ⟨hr, ?_⟩
    intro p c
    rw [hr]
    simp
  · intro args oresp nresp h₁ h₂
    have hr : mainRun args oresp nresp
        = ([Eff.mkdirParents (pathParent args.output),
            Eff.printErr "Error: --area is required with --query"], .exited 1) := by
      unfold mainRun
      rw [h₁, h₂]
      rfl
    refine ⟨hr, ?_⟩
    intro p c
    rw [hr]
    simp

/-- Witness for C4 at concrete invocations: no mode flag, and `--query`
without `--area`. -/
theorem C4_validation_witness :
    mainRun ⟨none, none, none, "public/data.geojson"⟩ [] [] = ([Eff.printHelp], .exited 1)
    ∧ mainRun ⟨some "leisure=park", none, none, "public/data.geojson"⟩ [] []
        = ([Eff.mkdirParents (pathParent "public/data.geojson"),
            Eff.printErr "Error: --area is required with --query"], .exited 1) :=
  ⟨(C4_validation.1 ⟨none, none, none, "public/data.geojson"⟩ [] [] (by decide) (by decide)).1,
   (C4_validation.2 ⟨some "leisure=park", none, none, "public/data.geojson"⟩ [] []
      (by decide) (by decide)).1⟩

theorem overpassFlow_no_validation (q a out : String) (oresp : List (String × JSON)) :
    Eff.printHelp ∉ (overpassFlow q a out oresp).1
      ∧ ∀ m, Eff.printErr m ∉ (overpassFlow q a out oresp).1 := by
  unfold overpassFlow
  rcases fetch_overpass q a 25 with e | ql
  · simp
  · rcases overpass_to_geojson oresp with e | gj <;> simp

/-- C9: with `--query`, `--area` and `--nominatim` all given, the run is
identical to the one without `--nominatim`: the Overpass flow runs, the
Nominatim argument is ignored, no usage or error line is printed, and when
the tag parses and the conversion succeeds the exit code is 0. -/
theorem C9_both_flags (q a n out : String) (oresp : List (String × JSON)) (nresp : List JSON)
    (hq : q ≠ "") (ha : a ≠ "") (hn : n ≠ "") :
    mainRun ⟨some q, some a, some n, out⟩ oresp nresp
        = mainRun ⟨some q, some a, none, out⟩ oresp nresp
    ∧ mainRun ⟨some q, some a, some n, out⟩ oresp nresp
        = (Eff.mkdirParents (pathParent out) :: (overpassFlow q a out oresp).1,
           (overpassFlow q a out oresp).2)
    ∧ Eff.printHelp ∉ (mainRun ⟨some q, some a, some n, out⟩ oresp nresp).1
    ∧ (∀ m, Eff.printErr m ∉ (mainRun ⟨some q, some a, some n, out⟩ oresp nresp).1)
    ∧ (∀ ql gj, fetch_overpass q a 25 = Except.ok ql →
        overpass_to_geojson oresp = Except.ok gj →
        (mainRun ⟨some q, some a, some n, out⟩ oresp nresp).2 = .exited 0) := by
  have hqt : pyTruthy (some q) = true := by simp [pyTruthy, hq]
  have hat : pyTruthy (some a) = true := by simp [pyTruthy, ha]
  have hmain : mainRun ⟨some q, some a, some n, out⟩ oresp nresp
      = (Eff.mkdirParents (pathParent out) :: (overpassFlow q a out oresp).1,
         (overpassFlow q a out oresp).2) := by
    unfold mainRun
    rw [hqt, hat]
    rcases hflow : overpassFlow q a out oresp with ⟨acts, st⟩
    simp [hflow]
  have hmain₂ : mainRun ⟨some q, some a, none, out⟩ oresp nresp
      = (Eff.mkdirParents (pathParent out) :: (overpassFlow q a out oresp).1,
         (overpassFlow q a out oresp).2) := by
    unfold mainRun
    rw [hqt, hat]
    rcases hflow : overpassFlow q a out oresp with ⟨acts, st⟩
    simp [hflow]
  refine ⟨hmain.trans hmain₂.symm, hmain, ?_, ?_, ?_⟩
  · rw [hmain]
    have h := overpassFlow_no_validation q a out oresp
    simp [h.1]
  · intro m
    rw [hmain]
    have h := overpassFlow_no_validation q a out oresp
    simp [h.2 m]
  · intro ql gj hql hgj
    rw [hmain]
    unfold overpassFlow
    rw [hql, hgj]

/-- Witness for C9 at a concrete invocation with all three flags. -/
theorem C9_both_flags_witness :
    mainRun ⟨some "leisure=park", some "Tokyo", some "Station", "public/data.geojson"⟩ [] []
      = mainRun ⟨some "leisure=park", some "Tokyo", none, "public/data.geojson"⟩ [] [] :=
  (C9_both_flags "leisure=park" "Tokyo" "Station" "public/data.geojson" [] []
    (by decide) (by decide) (by decide)).1


theorem exbind_ok {ε α β : Type} (a : α) (f : α → Except ε β) :
    (Except.ok a >>= f) = f a := rfl

/-- C3: an empty Nominatim result list maps to the empty FeatureCollection;
a non-empty one maps to a single `Point` feature built from the first
result alone, its `name`/`type`/`category` properties defaulting to the
empty string when absent, and its coordinates parsed as floating-point
numbers from the `lon`/`lat` string fields, in `[lon, lat]` order. -/
theorem C3_nominatim :
    fetch_nominatim [] = Except.ok emptyFC
    ∧ (∀ (rfields : List (String × JSON)) (restL : List JSON) (lonS latS : String)
        (lon lat : ℚ),
        JSON.lookupField rfields "lon" = some (.str lonS) →
        pyFloatLit (trimChars lonS.data) = some lon →
        JSON.lookupField rfields "lat" = some (.str latS) →
        pyFloatLit (trimChars latS.data) = some lat →
        fetch_nominatim (.obj rfields :: restL)
          = Except.ok (.obj [("type", .str "FeatureCollection"),
              ("features", .arr [.obj [("type", .str "Feature"),
                ("properties", .obj [("name", JSON.getD rfields "display_name" (.str "")),
                                     ("type", JSON.getD rfields "type" (.str "")),
                                     ("category", JSON.getD rfields "category" (.str ""))]),
                ("geometry", .obj [("type", .str "Point"),
                                   ("coordinates", .arr [.num lon, .num lat])])]])])) := by
  constructor
  · rfl
  · intro rfields restL lonS latS lon lat hlon hplon hlat hplat
    unfold fetch_nominatim
    dsimp only
    simp only [JSON.asObj, JSON.keyOf, pyFloat, exbind_ok, hlon, hlat, hplon, hplat]
    rfl

/-- Witness for C3: the empty list, and a one-result list with string
coordinates and a non-ASCII display name. -/
theorem C3_nominatim_witness :
    fetch_nominatim [] = Except.ok emptyFC
    ∧ fetch_nominatim [.obj [("display_name", .str "東京駅"),
                             ("lon", .str "139.767"), ("lat", .str "35.681")]]
      = Except.ok (.obj [("type", .str "FeatureCollection"),
          ("features", .arr [.obj [("type", .str "Feature"),
            ("properties", .obj [("name", .str "東京駅"),
                                 ("type", .str ""),
                                 ("category", .str "")]),
            ("geometry", .obj [("type", .str "Point"),
                               ("coordinates",
                                .arr [.num ((139767 : ℚ)/1000),
                                      .num ((35681 : ℚ)/1000)])])]])]) := by
  constructor
  · exact C3_nominatim.1
  · have hlon : pyFloatLit (trimChars "139.767".data) = some ((139767 : ℚ)/1000) := by
      have h : trimChars "139.767".data = ['1', '3', '9', '.', '7', '6', '7'] := by rfl
      rw [h]
      simp [pyFloatLit, takeDigits, digitsVal]
      norm_num
    have hlat : pyFloatLit (trimChars "35.681".data) = some ((35681 : ℚ)/1000) := by
      have h : trimChars "35.681".data = ['3', '5', '.', '6', '8', '1'] := by rfl
      rw [h]
      simp [pyFloatLit, takeDigits, digitsVal]
      norm_num
    exact C3_nominatim.2 [("display_name", .str "東京駅"),
        ("lon", .str "139.767"), ("lat", .str "35.681")] [] "139.767" "35.681"
      ((139767 : ℚ)/1000) ((35681 : ℚ)/1000) rfl hlon rfl hlat

theorem closedRing_iff (coords : List JSON) :
    closedRing coords = true ↔ 4 ≤ coords.length ∧ coords.head? = coords.getLast? := by
  unfold closedRing
  cases coords with
  | nil => simp
  | cons c cs =>
    obtain ⟨l, hl⟩ := Option.isSome_iff_exists.mp
      (List.getLast?_isSome.mpr (List.cons_ne_nil c cs))
    rw [hl]
    simp only [List.isEmpty_cons, Bool.not_false, Bool.true_and, List.head?_cons,
      Option.getD_some, Bool.and_eq_true, decide_eq_true_eq, beq_iff_eq, List.length_cons,
      Option.some_inj]
    constructor
    · rintro ⟨h₁, h₂⟩
      exact ⟨h₂, h₁⟩
    · rintro ⟨h₁, h₂⟩
      exact ⟨h₂, h₁⟩

/-- C2: a `way` element whose `geometry` list maps to vertex pairs `coords`
becomes a `Polygon` with the single ring `coords` exactly when `coords` has
at least four points and its first point equals its last; in every other
case — the empty list included — it becomes a `LineString` with `coords` in
input order. -/
theorem C2_way_ring (fields : List (String × JSON)) (pts coords : List JSON)
    (hty : JSON.lookupField fields "type" = some (.str "way"))
    (hgeom : JSON.lookupField fields "geometry" = some (.arr pts))
    (hcoords : pts.mapM ptPair = Except.ok coords) :
    elemToFeature (.obj fields)
      = Except.ok (some (.obj [("type", .str "Feature"),
          ("properties", JSON.getD fields "tags" (.obj [])),
          ("geometry",
           if 4 ≤ coords.length ∧ coords.head? = coords.getLast? then
             .obj [("type", .str "Polygon"), ("coordinates", .arr [.arr coords])]
           else
             .obj [("type", .str "LineString"), ("coordinates", .arr coords)])])) := by
  have h3 : JSON.hasField fields "geometry" = true := by
    rw [JSON.hasField, hgeom]
    rfl
  have h4 : JSON.getD fields "geometry" .null = .arr pts := by
    rw [JSON.getD, hgeom]
    rfl
  unfold elemToFeature
  dsimp only
  simp only [JSON.keyOf, hty, exbind_ok,
    show (JSON.str "way" == JSON.str "node") = false from rfl,
    show (JSON.str "way" == JSON.str "way") = true from rfl,
    h3, h4, Bool.false_eq_true, if_false, Bool.and_self, reduceIte,
    JSON.asList, hcoords]
  by_cases hc : 4 ≤ coords.length ∧ coords.head? = coords.getLast?
  · rw [if_pos ((closedRing_iff coords).mpr hc), if_pos hc]
    rfl
  · rw [if_neg (fun h => hc ((closedRing_iff coords).mp h)), if_neg hc]
    rfl

/-- Witness for C2: a closed four-point square becomes a `Polygon`; a
two-point path becomes a `LineString`. -/
theorem C2_way_ring_witness :
    elemToFeature (.obj [("type", .str "way"),
        ("geometry", .arr [.obj [("lon", .num 0), ("lat", .num 0)],
                           .obj [("lon", .num 1), ("lat", .num 0)],
                           .obj [("lon", .num 1), ("lat", .num 1)],
                           .obj [("lon", .num 0), ("lat", .num 0)]])])
      = Except.ok (some (.obj [("type", .str "Feature"), ("properties", .obj []),
          ("geometry", .obj [("type", .str "Polygon"),
            ("coordinates", .arr [.arr [.arr [.num 0, .num 0], .arr [.num 1, .num 0],
                                        .arr [.num 1, .num 1], .arr [.num 0, .num 0]]])])]))
    ∧ elemToFeature (.obj [("type", .str "way"),
        ("geometry", .arr [.obj [("lon", .num 0), ("lat", .num 0)],
                           .obj [("lon", .num 1), ("lat", .num 1)]])])
      = Except.ok (some (.obj [("type", .str "Feature"), ("properties", .obj []),
          ("geometry", .obj [("type", .str "LineString"),
            ("coordinates", .arr [.arr [.num 0, .num 0], .arr [.num 1, .num 1]])])])) := by
  constructor
  · have h := C2_way_ring [("type", .str "way"),
        ("geometry", .arr [.obj [("lon", .num 0), ("lat", .num 0)],
                           .obj [("lon", .num 1), ("lat", .num 0)],
                           .obj [("lon", .num 1), ("lat", .num 1)],
                           .obj [("lon", .num 0), ("lat", .num 0)]])]
      [.obj [("lon", .num 0), ("lat", .num 0)],
       .obj [("lon", .num 1), ("lat", .num 0)],
       .obj [("lon", .num 1), ("lat", .num 1)],
       .obj [("lon", .num 0), ("lat", .num 0)]]
      [.arr [.num 0, .num 0], .arr [.num 1, .num 0],
       .arr [.num 1, .num 1], .arr [.num 0, .num 0]] rfl rfl rfl
    rw [if_pos (by refine ⟨by decide, ?_⟩; rfl)] at h
    exact h
  · have h := C2_way_ring [("type", .str "way"),
        ("geometry", .arr [.obj [("lon", .num 0), ("lat", .num 0)],
                           .obj [("lon", .num 1), ("lat", .num 1)]])]
      [.obj [("lon", .num 0), ("lat", .num 0)],
       .obj [("lon", .num 1), ("lat", .num 1)]]
      [.arr [.num 0, .num 0], .arr [.num 1, .num 1]] rfl rfl rfl
    rw [if_neg (by intro hcon; exact absurd hcon.1 (by decide))] at h
    exact h

/-- C5: a `relation` element with a `bounds` object is rendered as a
`Polygon` whose single ring is the closed five-point rectangle of the
bounds, and in particular bounds `(0, 0, 1, 1)` give the ring
`[[0,0],[1,0],[1,1],[0,1],[0,0]]`. -/
theorem C5_relation_bounds :
    (∀ (fields b : List (String × JSON)) (a₁ a₂ a₃ a₄ : JSON),
      JSON.lookupField fields "type" = some (.str "relation") →
      JSON.lookupField fields "bounds" = some (.obj b) →
      JSON.lookupField b "minlon" = some a₁ →
      JSON.lookupField b "minlat" = some a₂ →
      JSON.lookupField b "maxlon" = some a₃ →
      JSON.lookupField b "maxlat" = some a₄ →
      elemToFeature (.obj fields)
        = Except.ok (some (.obj [("type", .str "Feature"),
            ("properties", JSON.getD fields "tags" (.obj [])),
            ("geometry", .obj [("type", .str "Polygon"),
              ("coordinates", .arr [.arr [.arr [a₁, a₂], .arr [a₃, a₂], .arr [a₃, a₄],
                                          .arr [a₁, a₄], .arr [a₁, a₂]]])])])))
    ∧ overpass_to_geojson [("elements", .arr [.obj [("type", .str "relation"),
          ("bounds", .obj [("minlon", .num 0), ("minlat", .num 0),
                           ("maxlon", .num 1), ("maxlat", .num 1)])]])]
        = Except.ok (.obj [("type", .str "FeatureCollection"),
            ("features", .arr [.obj [("type", .str "Feature"), ("properties", .obj []),
              ("geometry", .obj [("type", .str "Polygon"),
                ("coordinates", .arr [.arr [.arr [.num 0, .num 0], .arr [.num 1, .num 0],
                                            .arr [.num 1, .num 1], .arr [.num 0, .num 1],
                                            .arr [.num 0, .num 0]]])])]])]) := by
  constructor
  · intro fields b a₁ a₂ a₃ a₄ hty hb h₁ h₂ h₃ h₄
    have hhas : JSON.hasField fields "bounds" = true := by
      rw [JSON.hasField, hb]
      rfl
    have hget : JSON.getD fields "bounds" .null = .obj b := by
      rw [JSON.getD, hb]
      rfl
    unfold elemToFeature
    dsimp only
    simp only [JSON.keyOf, hty, exbind_ok,
      show (JSON.str "relation" == JSON.str "node") = false from rfl,
      show (JSON.str "relation" == JSON.str "way") = false from rfl,
      show (JSON.str "relation" == JSON.str "relation") = true from rfl,
      Bool.false_eq_true, if_false, Bool.false_and, hhas, hget, Bool.and_self, reduceIte,
      JSON.asObj, h₁, h₂, h₃, h₄]
    rfl
  · rfl

/-- Witness for C5's general part at the concrete bounds `(0, 0, 1, 1)`. -/
theorem C5_relation_bounds_witness :
    elemToFeature (.obj [("type", .str "relation"),
        ("bounds", .obj [("minlon", .num 0), ("minlat", .num 0),
                         ("maxlon", .num 1), ("maxlat", .num 1)])])
      = Except.ok (some (.obj [("type", .str "Feature"), ("properties", .obj []),
          ("geometry", .obj [("type", .str "Polygon"),
            ("coordinates", .arr [.arr [.arr [.num 0, .num 0], .arr [.num 1, .num 0],
                                        .arr [.num 1, .num 1], .arr [.num 0, .num 1],
                                        .arr [.num 0, .num 0]]])])])) :=
  C5_relation_bounds.1 [("type", .str "relation"),
      ("bounds", .obj [("minlon", .num 0), ("minlat", .num 0),
                       ("maxlon", .num 1), ("maxlat", .num 1)])]
    [("minlon", .num 0), ("minlat", .num 0), ("maxlon", .num 1), ("maxlat", .num 1)]
    (.num 0) (.num 0) (.num 1) (.num 1) rfl rfl rfl rfl rfl rfl

/-- Counterexample to C1 as stated: a `node` element lacking `lon` does not
get silently skipped — `overpass_to_geojson` raises `KeyError` for it. -/
theorem C1_node_missing_lon_cex :
    overpass_to_geojson [("elements", .arr [.obj [("type", .str "node")]])]
      = Except.error (.keyError "lon") := by rfl

/-- C1 (amended): an element whose `type` is present but is not `node`, is
`way` only without a `geometry` field, and is `relation` only without a
`bounds` field, is silently skipped: no feature, no exception, and the
remaining elements are processed as if it were absent.  (A `node` missing
`lon`/`lat` is not covered: there the code raises `KeyError`, per
`C1_node_missing_lon_cex`.) -/
theorem C1_silent_skip (fields : List (String × JSON)) (ty : JSON)
    (hty : JSON.lookupField fields "type" = some ty)
    (hnode : ty ≠ .str "node")
    (hway : ty = .str "way" → JSON.hasField fields "geometry" = false)
    (hrel : ty = .str "relation" → JSON.hasField fields "bounds" = false) :
    elemToFeature (.obj fields) = Except.ok none
    ∧ ∀ es, featuresOf (.obj fields :: es) = featuresOf es := by
  have h₁ : (ty == JSON.str "node") = false := beq_eq_false_iff_ne.mpr hnode
  have h₂ : (ty == JSON.str "way" && JSON.hasField fields "geometry") = false := by
    by_cases hw : ty = .str "way"
    · rw [hway hw]
      simp
    · simp [beq_eq_false_iff_ne.mpr hw]
  have h₃ : (ty == JSON.str "relation" && JSON.hasField fields "bounds") = false := by
    by_cases hr : ty = .str "relation"
    · rw [hrel hr]
      simp
    · simp [beq_eq_false_iff_ne.mpr hr]
  have hskip : elemToFeature (.obj fields) = Except.ok none := by
    unfold elemToFeature
    dsimp only
    simp only [JSON.keyOf, hty, exbind_ok, h₁, h₂, h₃, Bool.false_eq_true, if_false]
    rfl
  refine ⟨hskip, ?_⟩
  intro es
  rw [featuresOf, hskip, exbind_ok]
  cases hes : featuresOf es <;> rfl

/-- Witness for C1 (amended): a `way` element with no `geometry` field is
skipped and contributes nothing. -/
theorem C1_silent_skip_witness :
    elemToFeature (.obj [("type", .str "way")]) = Except.ok none
    ∧ featuresOf [.obj [("type", .str "way")]] = featuresOf [] :=
  have h := C1_silent_skip [("type", .str "way")] (.str "way") rfl (by decide)
    (fun _ => rfl) (fun hr => absurd hr (by decide))
  ⟨h.1, h.2 []⟩


theorem exbind_err {ε α β : Type} (e : ε) (f : α → Except ε β) :
    ((Except.error e : Except ε α) >>= f) = Except.error e := rfl

theorem expure {ε α : Type} (a : α) : (pure a : Except ε α) = Except.ok a := rfl

theorem exbind_eq_match {ε α β : Type} (e : Except ε α) (f : α → Except ε β) :
    (e >>= f) = match e with
                | .ok a => f a
                | .error err => Except.error err := by
  cases e <;> rfl

theorem elemToFeature_ok_some (e f : JSON) (h : elemToFeature e = Except.ok (some f)) :
    ∃ fields g gty grest, e = JSON.obj fields
      ∧ f = JSON.obj [("type", .str "Feature"),
                      ("properties", JSON.getD fields "tags" (.obj [])),
                      ("geometry", g)]
      ∧ g = JSON.obj (("type", JSON.str gty) :: grest)
      ∧ (gty = "Point" ∨ gty = "LineString" ∨ gty = "Polygon") := by
  cases e with
  | obj fields =>
    unfold elemToFeature at h
    dsimp only at h
    simp only [JSON.keyOf, JSON.asList, JSON.asObj] at h
    rcases hty : JSON.lookupField fields "type" with _ | ty <;> rw [hty] at h <;>
      simp only [exbind_ok, exbind_err, expure] at h
    · exact Except.noConfusion h
    · by_cases h₁ : (ty == JSON.str "node") = true
      · rw [if_pos h₁] at h
        rcases hlon : JSON.lookupField fields "lon" with _ | lon <;> rw [hlon] at h <;>
          simp only [exbind_ok, exbind_err, expure, exbind_eq_match] at h
        · exact Except.noConfusion h
        rcases hlat : JSON.lookupField fields "lat" with _ | lat <;> rw [hlat] at h <;>
          simp only [exbind_ok, exbind_err, expure, exbind_eq_match] at h
        · exact Except.noConfusion h
        simp only [Except.ok.injEq, Option.some.injEq] at h
        subst h
        exact ⟨fields, _, "Point", _, rfl, rfl, rfl, Or.inl rfl⟩
      · rw [if_neg h₁] at h
        by_cases h₂ : (ty == JSON.str "way" && JSON.hasField fields "geometry") = true
        · rw [if_pos h₂] at h
          rcases hgeom : JSON.getD fields "geometry" JSON.null with _ | _ | _ | _ | pts | _ <;>
            rw [hgeom] at h <;>
            simp only [exbind_ok, exbind_err, expure, exbind_eq_match] at h
          · exact Except.noConfusion h
          · exact Except.noConfusion h
          · exact Except.noConfusion h
          · exact Except.noConfusion h
          swap
          · exact Except.noConfusion h
          rcases hmap : pts.mapM ptPair with err | coords <;> rw [hmap] at h <;>
            simp only [exbind_ok, exbind_err, expure, exbind_eq_match] at h
          · exact Except.noConfusion h
          by_cases hring : closedRing coords = true
          · rw [if_pos hring] at h
            simp only [Except.ok.injEq, Option.some.injEq] at h
            subst h
            exact ⟨fields, _, "Polygon", _, rfl, rfl, rfl, Or.inr (Or.inr rfl)⟩
          · rw [if_neg hring] at h
            simp only [Except.ok.injEq, Option.some.injEq] at h
            subst h
            exact ⟨fields, _, "LineString", _, rfl, rfl, rfl, Or.inr (Or.inl rfl)⟩
        · rw [if_neg h₂] at h
          by_cases h₃ : (ty == JSON.str "relation" && JSON.hasField fields "bounds") = true
          · rw [if_pos h₃] at h
            rcases hb : JSON.getD fields "bounds" JSON.null with _ | _ | _ | _ | _ | b <;>
              rw [hb] at h <;>
              simp only [exbind_ok, exbind_err, expure, exbind_eq_match] at h
            · exact Except.noConfusion h
            · exact Except.noConfusion h
            · exact Except.noConfusion h
            · exact Except.noConfusion h
            · exact Except.noConfusion h
            rcases h₄ : JSON.lookupField b "minlon" with _ | a₁ <;> rw [h₄] at h <;>
              simp only [exbind_ok, exbind_err, expure, exbind_eq_match] at h
            · exact Except.noConfusion h
            rcases h₅ : JSON.lookupField b "minlat" with _ | a₂ <;> rw [h₅] at h <;>
              simp only [exbind_ok, exbind_err, expure, exbind_eq_match] at h
            · exact Except.noConfusion h
            rcases h₆ : JSON.lookupField b "maxlon" with _ | a₃ <;> rw [h₆] at h <;>
              simp only [exbind_ok, exbind_err, expure, exbind_eq_match] at h
            · exact Except.noConfusion h
            rcases h₇ : JSON.lookupField b "maxlat" with _ | a₄ <;> rw [h₇] at h <;>
              simp only [exbind_ok, exbind_err, expure, exbind_eq_match] at h
            · exact Except.noConfusion h
            simp only [Except.ok.injEq, Option.some.injEq] at h
            subst h
            exact ⟨fields, _, "Polygon", _, rfl, rfl, rfl, Or.inr (Or.inr rfl)⟩
          · rw [if_neg h₃] at h
            exact absurd h (by simp [expure, exbind_ok])
  | null => exact absurd h (by simp [elemToFeature])
  | bool b => exact absurd h (by cases b <;> simp [elemToFeature])
  | num q => exact absurd h (by simp [elemToFeature])
  | str s => exact absurd h (by simp [elemToFeature])
  | arr xs => exact absurd h (by simp [elemToFeature])

/-- C6: the empty and defaulted `elements` cases give the empty
FeatureCollection; the features of a successful conversion are exactly the
order-preserving image of the per-element translation; and every emitted
feature's properties are its element's `tags` mapping, defaulting to the
empty mapping. -/
theorem C6_collection :
    overpass_to_geojson [] = Except.ok emptyFC
    ∧ (∀ data : List (String × JSON), JSON.getD data "elements" (.arr []) = .arr [] →
        overpass_to_geojson data = Except.ok emptyFC)
    ∧ (∀ (elems fs : List JSON), featuresOf elems = Except.ok fs →
        fs = elems.filterMap (fun e =>
          match elemToFeature e with
          | .ok (some f) => some f
          | _ => none))
    ∧ (∀ (e f : JSON), elemToFeature e = Except.ok (some f) →
        ∃ fields g, e = JSON.obj fields
          ∧ f = .obj [("type", .str "Feature"),
                      ("properties", JSON.getD fields "tags" (.obj [])),
                      ("geometry", g)]) := by
  refine ⟨rfl, ?_, ?_, ?_⟩
  · intro data hd
    unfold overpass_to_geojson
    simp only [hd, JSON.asList, exbind_ok]
    rfl
  · intro elems
    induction elems with
    | nil =>
      intro fs h
      simp only [featuresOf] at h
      simp only [Except.ok.injEq] at h
      rw [← h]
      rfl
    | cons e es ih =>
      intro fs h
      rw [featuresOf] at h
      rcases hfo : elemToFeature e with err | fo <;> rw [hfo] at h <;>
        simp only [exbind_ok, exbind_err] at h
      · exact Except.noConfusion h
      rcases hrest : featuresOf es with err | rest <;> rw [hrest] at h <;>
        simp only [exbind_ok, exbind_err, exbind_eq_match] at h
      · exact Except.noConfusion h
      have ihr := ih rest hrest
      cases fo with
      | none =>
        simp only [expure, Except.ok.injEq] at h
        rw [← h, List.filterMap_cons, hfo, ihr]
      | some f =>
        simp only [expure, Except.ok.injEq] at h
        rw [← h, List.filterMap_cons, hfo, ihr]
  · intro e f h
    obtain ⟨fields, g, gty, grest, he, hf, _, _⟩ := elemToFeature_ok_some e f h
    exact ⟨fields, g, he, hf⟩

/-- Witness for C6: a response with no `elements` key defaults to the empty
collection, and a one-node response produces exactly that node's feature in
order. -/
theorem C6_collection_witness :
    overpass_to_geojson [("generator", .str "Overpass API")] = Except.ok emptyFC
    ∧ [JSON.obj [("type", .str "Feature"), ("properties", .obj []),
        ("geometry", .obj [("type", .str "Point"),
                           ("coordinates", .arr [.num 1, .num 2])])]]
      = [JSON.obj [("type", .str "node"), ("lon", .num 1), ("lat", .num 2)]].filterMap
          (fun e =>
            match elemToFeature e with
            | .ok (some f) => some f
            | _ => none) :=
  ⟨C6_collection.2.1 [("generator", .str "Overpass API")] rfl,
   C6_collection.2.2.1 [.obj [("type", .str "node"), ("lon", .num 1), ("lat", .num 2)]]
     [.obj [("type", .str "Feature"), ("properties", .obj []),
       ("geometry", .obj [("type", .str "Point"),
                          ("coordinates", .arr [.num 1, .num 2])])]] rfl⟩

theorem featuresOf_mem (elems fs : List JSON) (h : featuresOf elems = Except.ok fs) :
    ∀ f ∈ fs, ∃ e ∈ elems, elemToFeature e = Except.ok (some f) := by
  induction elems generalizing fs with
  | nil =>
    simp only [featuresOf, Except.ok.injEq] at h
    rw [← h]
    intro f hf
    exact absurd hf (List.not_mem_nil f)
  | cons e es ih =>
    rw [featuresOf] at h
    rcases hfo : elemToFeature e with err | fo <;> rw [hfo] at h <;>
      simp only [exbind_ok, exbind_err] at h
    · exact Except.noConfusion h
    rcases hrest : featuresOf es with err | rest <;> rw [hrest] at h <;>
      simp only [exbind_ok, exbind_err] at h
    · exact Except.noConfusion h
    have ihr := ih rest hrest
    cases fo with
    | none =>
      simp only [expure, Except.ok.injEq] at h
      rw [← h]
      intro f hf
      obtain ⟨e₂, he₂, hfe₂⟩ := ihr f hf
      exact ⟨e₂, List.mem_cons_of_mem e he₂, hfe₂⟩
    | some f₀ =>
      simp only [expure, Except.ok.injEq] at h
      rw [← h]
      intro f hf
      rcases List.mem_cons.mp hf with rfl | hmem
      · exact ⟨e, List.mem_cons_self e es, hfo⟩
      · obtain ⟨e₂, he₂, hfe₂⟩ := ihr f hmem
        exact ⟨e₂, List.mem_cons_of_mem e he₂, hfe₂⟩

/-- C10: every feature a successful conversion emits is a `Feature` object
with a properties mapping (given that the elements' `tags`, where present,
are mappings) and a non-null geometry object whose type is `Point`,
`LineString` or `Polygon`. -/
theorem C10_feature_shape (data : List (String × JSON)) (elems : List JSON) (gj : JSON)
    (helems : JSON.getD data "elements" (.arr []) = .arr elems)
    (h : overpass_to_geojson data = Except.ok gj)
    (htags : ∀ fields t, JSON.obj fields ∈ elems →
      JSON.lookupField fields "tags" = some t → ∃ tf, t = JSON.obj tf) :
    ∃ fs, gj = .obj [("type", .str "FeatureCollection"), ("features", .arr fs)]
      ∧ ∀ f ∈ fs, ∃ props g gty grest pf,
          f = .obj [("type", .str "Feature"), ("properties", props), ("geometry", g)]
          ∧ props = .obj pf
          ∧ g = .obj (("type", .str gty) :: grest)
          ∧ (gty = "Point" ∨ gty = "LineString" ∨ gty = "Polygon") := by
  unfold overpass_to_geojson at h
  simp only [helems, JSON.asList, exbind_ok] at h
  rcases hfs : featuresOf elems with err | fs <;> rw [hfs] at h <;>
    simp only [exbind_ok, exbind_err] at h
  · exact Except.noConfusion h
  simp only [expure, Except.ok.injEq] at h
  refine ⟨fs, h.symm, ?_⟩
  intro f hf
  obtain ⟨e, he, hfe⟩ := featuresOf_mem elems fs hfs f hf
  obtain ⟨fields, g, gty, grest, rfl, hfeq, hg, hgty⟩ := elemToFeature_ok_some e f hfe
  rcases hlt : JSON.lookupField fields "tags" with _ | t
  · refine ⟨JSON.getD fields "tags" (.obj []), g, gty, grest, [], hfeq, ?_, hg, hgty⟩
    rw [JSON.getD, hlt]
    rfl
  · obtain ⟨tf, rfl⟩ := htags fields t he hlt
    refine ⟨JSON.getD fields "tags" (.obj []), g, gty, grest, tf, hfeq, ?_, hg, hgty⟩
    rw [JSON.getD, hlt]
    rfl

/-- Witness for C10 at a concrete one-node response carrying a tags
mapping. -/
theorem C10_feature_shape_witness :
    ∃ fs, JSON.obj [("type", .str "FeatureCollection"),
        ("features", .arr [.obj [("type", .str "Feature"),
          ("properties", .obj [("name", .str "park")]),
          ("geometry", .obj [("type", .str "Point"),
                             ("coordinates", .arr [.num 1, .num 2])])]])]
      = .obj [("type", .str "FeatureCollection"), ("features", .arr fs)]
      ∧ ∀ f ∈ fs, ∃ props g gty grest pf,
          f = .obj [("type", .str "Feature"), ("properties", props), ("geometry", g)]
          ∧ props = .obj pf
          ∧ g = .obj (("type", .str gty) :: grest)
          ∧ (gty = "Point" ∨ gty = "LineString" ∨ gty = "Polygon") :=
  C10_feature_shape
    [("elements", .arr [.obj [("type", .str "node"), ("lon", .num 1), ("lat", .num 2),
        ("tags", .obj [("name", .str "park")])]])]
    [.obj [("type", .str "node"), ("lon", .num 1), ("lat", .num 2),
        ("tags", .obj [("name", .str "park")])]]
    (.obj [("type", .str "FeatureCollection"),
        ("features", .arr [.obj [("type", .str "Feature"),
          ("properties", .obj [("name", .str "park")]),
          ("geometry", .obj [("type", .str "Point"),
                             ("coordinates", .arr [.num 1, .num 2])])]])])
    rfl rfl
    (by
      intro fields t hmem hlt
      simp only [List.mem_singleton] at hmem
      rw [show fields = [("type", JSON.str "node"), ("lon", .num 1), ("lat", .num 2),
            ("tags", .obj [("name", .str "park")])] from by injection hmem] at hlt
      refine ⟨[("name", .str "park")], ?_⟩
      injection hlt.symm)

/-- C8: a FeatureCollection produced by either flow, serialized the way the
script writes it (UTF-8, non-ASCII preserved literally, 2-space indent) and
parsed back, is deep-equal to the in-memory value, for every value whose
numbers are exactly representable decimals. -/
theorem C8_round_trip :
    (∀ (data : List (String × JSON)) (gj : JSON),
        overpass_to_geojson data = Except.ok gj → numsDecimal gj = true →
        jsonParse (jsonSerialize gj) = some gj)
    ∧ (∀ (results : List JSON) (gj : JSON),
        fetch_nominatim results = Except.ok gj → numsDecimal gj = true →
        jsonParse (jsonSerialize gj) = some gj) :=
  ⟨fun _ gj _ h => jsonParse_serialize gj h,
   fun _ gj _ h => jsonParse_serialize gj h⟩

/-- Witness for C8: a one-node response with a non-ASCII tag round-trips. -/
theorem C8_round_trip_witness :
    overpass_to_geojson
        [("elements", .arr [.obj [("type", .str "node"), ("lon", .num 1), ("lat", .num 2),
            ("tags", .obj [("名前", .str "公園")])]])]
      = Except.ok (.obj [("type", .str "FeatureCollection"),
          ("features", .arr [.obj [("type", .str "Feature"),
            ("properties", .obj [("名前", .str "公園")]),
            ("geometry", .obj [("type", .str "Point"),
                               ("coordinates", .arr [.num 1, .num 2])])]])])
    ∧ numsDecimal (.obj [("type", .str "FeatureCollection"),
          ("features", .arr [.obj [("type", .str "Feature"),
            ("properties", .obj [("名前", .str "公園")]),
            ("geometry", .obj [("type", .str "Point"),
                               ("coordinates", .arr [.num 1, .num 2])])]])]) = true
    ∧ jsonParse (jsonSerialize (.obj [("type", .str "FeatureCollection"),
          ("features", .arr [.obj [("type", .str "Feature"),
            ("properties", .obj [("名前", .str "公園")]),
            ("geometry", .obj [("type", .str "Point"),
                               ("coordinates", .arr [.num 1, .num 2])])]])]))
        = some (.obj [("type", .str "FeatureCollection"),
          ("features", .arr [.obj [("type", .str "Feature"),
            ("properties", .obj [("名前", .str "公園")]),
            ("geometry", .obj [("type", .str "Point"),
                               ("coordinates", .arr [.num 1, .num 2])])]])]) :=
  ⟨rfl, by decide,
   C8_round_trip.1
     [("elements", .arr [.obj [("type", .str "node"), ("lon", .num 1), ("lat", .num 2),
         ("tags", .obj [("名前", .str "公園")])]])]
     (.obj [("type", .str "FeatureCollection"),
        ("features", .arr [.obj [("type", .str "Feature"),
          ("properties", .obj [("名前", .str "公園")]),
          ("geometry", .obj [("type", .str "Point"),
                             ("coordinates", .arr [.num 1, .num 2])])]])])
     rfl (by decide)⟩
